import Mathlib

/-!
Verification of the Enrichment Reconciliation Engine (`src/index.js`) of the
`eating.london.restaurants` repository.

The engine syncs restaurant records in an Airtable-like record store against
the Google Places provider (and an optional text-generation provider).  This
file gives a shallow embedding of the engine: JavaScript values become an
inductive `JSVal` type (numbers are modelled as exact rationals `ℚ`; the
engine only multiplies, rounds and divides them), record field sets become
association lists, provider and store calls become explicit functions
returning `Except` for throwing calls, and the engine's side effects (provider
requests and store writes) are collected in an explicit trace.
-/

namespace EatingLondon

/-- A JavaScript value, as far as the enrichment engine observes them:
strings, (finite) numbers, booleans, `Date` instances, `null` and
`undefined`.  Numbers are modelled as exact rationals. -/
inductive JSVal where
  | str (s : String)
  | num (q : ℚ)
  | jbool (b : Bool)
  | date
  | nul
  | undef
deriving Repr, DecidableEq

/-- JavaScript truthiness for the values the engine handles (`''`, `0`,
`false`, `null`, `undefined` are falsy). -/
def truthy : JSVal → Bool
  | .str s => s ≠ ""
  | .num q => q ≠ 0
  | .jbool b => b
  | .date => true
  | .nul => false
  | .undef => false

/-- JavaScript `a || b` on values: returns `a` when truthy, else `b`. -/
def jsOr (a b : JSVal) : JSVal := if truthy a then a else b

/-- Rendering of a number for `String(value)` coercions.  The engine never
branches on the decimal rendering of a number, so this model keeps a simple
exact rendering rather than reproducing JavaScript float formatting. -/
def jsNumToString (q : ℚ) : String :=
  if q.den = 1 then toString q.num else toString q.num ++ "/" ++ toString q.den

/-- `String(value)` coercion, for the values the engine passes through it. -/
def jsToString : JSVal → String
  | .str s => s
  | .num q => jsNumToString q
  | .jbool b => if b then "true" else "false"
  | .date => "[object Date]"
  | .nul => "null"
  | .undef => "undefined"

/-- `String.prototype.toLowerCase`, defined character-wise over the
underlying character list so that the kernel can evaluate it on literals. -/
def lowerStr (s : String) : String := String.mk (s.data.map Char.toLower)

/-- `String.prototype.trim`: strip leading and trailing whitespace (defined
over the character list for the same reason). -/
def trimStr (s : String) : String :=
  String.mk (((s.data.dropWhile Char.isWhitespace).reverse.dropWhile
    Char.isWhitespace).reverse)

/-- `clean` from `src/index.js:229`:
`(s) => (s == null ? '' : String(s).trim())` (loose `== null` also catches
`undefined`). -/
def clean : JSVal → String
  | .nul => ""
  | .undef => ""
  | v => trimStr (jsToString v)

/-- A record's field set, as a JavaScript object: an association list from
field names to values (keys are kept unique by construction). -/
abbrev Fields := List (String × JSVal)

/-- Object property read: `fields[k]`, `undefined` when the key is absent. -/
def getF (fs : Fields) (k : String) : JSVal := ((fs.lookup k).getD .undef)

/-- `Object.prototype.hasOwnProperty.call(fields, k)`. -/
def hasF (fs : Fields) (k : String) : Bool := (fs.lookup k).isSome

/-- Property assignment `fields[k] = v`: replaces an existing binding in
place, otherwise appends one. -/
def setF : Fields → String → JSVal → Fields
  | [], k, v => [(k, v)]
  | p :: rest, k, v => if p.1 = k then (k, v) :: rest else p :: setF rest k v

/-- `delete fields[k]`. -/
def delF (fs : Fields) (k : String) : Fields := fs.filter (fun p => p.1 ≠ k)

/-- Spreading a patch object onto a base object (`{ ...base, ...patch }` /
the effect of an Airtable partial update on a stored record). -/
def mergeF (base patch : Fields) : Fields :=
  patch.foldl (fun acc p => setF acc p.1 p.2) base

/-- A field is blank in the Airtable sense: absent, null, or the empty
string. -/
def isBlankField : JSVal → Bool
  | .undef => true
  | .nul => true
  | .str s => s = ""
  | _ => false

/-- `parseSelectOptions` from `src/index.js:99`: splits a comma-separated
override on commas, trims entries, drops empties, and falls back to the
default list when the override is absent/empty. -/
def parseSelectOptions (value : Option String) (fallback : List String) : List String :=
  match value with
  | none => fallback
  | some v =>
    if v = "" then fallback
    else
      let entries := ((v.splitOn ",").map trimStr).filter (fun s => s ≠ "")
      if entries.isEmpty then fallback else entries

/-- The default enrichment status option list (`src/index.js:115`). -/
def defaultStatusOptions : List String := ["pending", "enriched", "not_found", "error"]

/-- `matchSelectOption` from `src/index.js:122`: case-insensitive,
trim-insensitive match of a desired label against the configured options;
`undefined` (`none`) when the desired label is falsy or unmatched. -/
def matchSelectOption (desired : String) (options : List String) : Option String :=
  if desired = "" then none
  else options.find? (fun o => lowerStr (trimStr o) = lowerStr (trimStr desired))

/-- `pickEnrichmentStatus` from `src/index.js:136`: the desired token, then
the (truthy) fallback token, matched against the configured options; else
`undefined`. -/
def pickEnrichmentStatus (options : List String) (status : String)
    (fallback : Option String) : Option String :=
  match matchSelectOption status options with
  | some m => some m
  | none =>
    match fallback with
    | some fb => if fb = "" then none else matchSelectOption fb options
    | none => none

/-- `if (status) update['Enrichment Status'] = status` — the guard is JS
truthiness, so an empty-string match is also omitted. -/
def addStatusField (update : Fields) (status : Option String) : Fields :=
  match status with
  | some st => if st = "" then update else setF update "Enrichment Status" (.str st)
  | none => update

/-- `currentDateForAirtable` (`src/index.js:152`): the date part of the
current ISO timestamp (`split('T')[0]`, i.e. everything before the first
`'T'`). -/
def currentDateForAirtable (nowISO : String) : String :=
  String.mk (nowISO.data.takeWhile (fun c => c ≠ 'T'))

/-- `resolveLastEnrichedValue` from `src/index.js:154`: no existing value →
date-only stamp; a `Date` instance or a string containing `'T'` → full
date-time stamp; anything else → date-only stamp. -/
def resolveLastEnrichedValue (nowISO : String) : JSVal → String
  | .undef => currentDateForAirtable nowISO
  | .nul => currentDateForAirtable nowISO
  | .date => nowISO
  | .str s =>
    if s = "" then currentDateForAirtable nowISO
    else if s.data.contains 'T' then nowISO
    else currentDateForAirtable nowISO
  | .num _ => currentDateForAirtable nowISO
  | .jbool _ => currentDateForAirtable nowISO

/-! ### Numeric coercion (`src/index.js:174`–`224`)

`Number.parseFloat` is an external runtime primitive; the model takes it as a
function `String → Option ℚ` (`none` models `NaN`/non-finite results), so
every theorem below holds for an arbitrary parser. -/

/-- `toNumberOrNull` from `src/index.js:174`: `null`/`undefined` → `null`;
finite numbers pass through; other values are stringified, trimmed, and
parsed (`''` → `null`, unparseable → `null`). -/
def toNumberOrNull (parse : String → Option ℚ) : JSVal → Option ℚ
  | .undef => none
  | .nul => none
  | .num q => some q
  | v =>
    let t := (jsToString v).trim
    if t = "" then none else parse t

/-- `preferNumeric` from `src/index.js:187`: the primary value when it
parses, else the fallback. -/
def preferNumeric (parse : String → Option ℚ) (primary fallback : JSVal) : Option ℚ :=
  match toNumberOrNull parse primary with
  | some q => some q
  | none => toNumberOrNull parse fallback

/-- JavaScript `Math.round`: round half toward positive infinity,
`⌊x + 1/2⌋`. -/
def jsRound (x : ℚ) : ℤ := ⌊x + 1 / 2⌋

/-- `roundToPrecision` from `src/index.js:193`: multiply-round-divide with
factor `10 ^ precision`; the value is returned unchanged when no (finite
numeric) precision is supplied. -/
def roundToPrecision (v : ℚ) : Option ℤ → ℚ
  | none => v
  | some p =>
    let factor : ℚ := 10 ^ p
    (jsRound (v * factor) : ℚ) / factor

/-- `coerceNumericField` from `src/index.js:199`: prefer the incoming value,
fall back to the existing one, `null` when neither parses (the warning log
has no observable effect), and round when a precision is configured. -/
def coerceNumericField (parse : String → Option ℚ) (incoming fallback : JSVal)
    (precision : Option ℤ) : Option ℚ :=
  match preferNumeric parse incoming fallback with
  | none => none
  | some c => some (roundToPrecision c precision)

/-! ### Slug derivation (`src/index.js:226`) -/

/-- `toSlug` from `src/index.js:226`: `slugify(name, {lower, strict, trim})`.
Model of the `slugify` package for the options used: keep alphanumerics and
whitespace, trim, join whitespace-separated chunks with `-`, lowercase.  (The
package's accent charmap is not reproduced; no claim depends on it.) -/
def toSlug (name : String) : String :=
  let filtered := String.mk (name.data.filter (fun c => c.isAlphanum || c.isWhitespace))
  let parts := ((trimStr filtered).split Char.isWhitespace).filter (fun s => s ≠ "")
  lowerStr (String.intercalate "-" parts)

/-! ### Errors and the record store (`src/index.js:77`, `231`–`301`) -/

/-- The shape of a thrown error as the engine inspects it: an optional HTTP
status code, an optional Airtable error code, and a message. -/
structure JsError where
  statusCode : Option ℤ
  errorCode : Option String
  message : String
deriving Repr, DecidableEq

/-- `isAirtableNotFound` from `src/index.js:77`:
`err?.statusCode === 404 && err?.error === 'NOT_FOUND'`. -/
def isAirtableNotFound (e : JsError) : Bool :=
  e.statusCode = some 404 ∧ e.errorCode = some "NOT_FOUND"

/-- Substring test (JS `String.prototype.includes`), over character lists. -/
def strIncludes (hay needle : String) : Bool :=
  (List.range (hay.data.length + 1)).any (fun i => needle.data.isPrefixOf (hay.data.drop i))

/-- `isMissingNotesFieldError` from `src/index.js:231`: only while the Notes
field is still believed available, a 422 whose message mentions `notes`. -/
def isMissingNotesFieldError (notesFieldAvailable : Bool) (e : JsError) : Bool :=
  notesFieldAvailable ∧ e.statusCode = some 422 ∧ strIncludes (lowerStr e.message) "notes"

/-- `sanitizeOptionalFields` from `src/index.js:237`: once the Notes column
is known to be missing, strip `Notes` from a payload before sending. -/
def sanitizeOptionalFields (notesFieldAvailable : Bool) (fields : Fields) : Fields :=
  if ¬notesFieldAvailable ∧ hasF fields "Notes" then delF fields "Notes" else fields

/-- A stored record: Airtable id plus its field set. -/
structure Rec where
  id : String
  fields : Fields
deriving Repr, DecidableEq

/-- The record store's contents. -/
abbrev Store := List Rec

/-- A single entry of a batch write (`{id?, fields}`). -/
structure Entry where
  id : Option String
  fields : Fields
deriving Repr, DecidableEq

/-- The two write actions the engine performs (`table['update']`,
`table['create']`). -/
inductive TAction where
  | update
  | create
deriving Repr, DecidableEq

/-- The external table write primitive: given an action, the prepared
entries and the current store contents, either the new store contents plus
the returned records, or a thrown error. -/
abbrev TableFn := TAction → List Entry → Store → Except JsError (Store × List Rec)

/-- The 422 error Airtable raises for a payload naming a column that does
not exist (message mentions the field). -/
def missingNotesError : JsError :=
  { statusCode := some 422, errorCode := some "UNKNOWN_FIELD_NAME"
    message := "Unknown field name: \"Notes\"" }

/-- The fatal 404 for a write against a missing record/base/table. -/
def airtableNotFoundError : JsError :=
  { statusCode := some 404, errorCode := some "NOT_FOUND"
    message := "Could not find what you are looking for" }

/-- The effect of an Airtable batch update on the stored records: each
entry's fields are merged into the record with its id (an Airtable update is
partial: absent fields are untouched). -/
def applyUpdateEntries (entries : List Entry) (store : Store) : Store :=
  store.map (fun r =>
    match entries.find? (fun e => e.id = some r.id) with
    | some e => { r with fields := mergeF r.fields e.fields }
    | none => r)

/-- Model of the Airtable table endpoint (§6 of the spec): rejects payloads
mentioning the `Notes` column with a 422 when that column does not exist in
the schema (`notesCol = false`); updates merge fields into the matching
records (404 when an id is unknown); creates append fresh records. -/
def airtableTable (notesCol : Bool) : TableFn := fun action entries store =>
  if ¬notesCol ∧ entries.any (fun e => hasF e.fields "Notes") then
    .error missingNotesError
  else
    match action with
    | .update =>
      if entries.all (fun e => match e.id with
          | some i => store.any (fun r => r.id = i)
          | none => false) then
        .ok (applyUpdateEntries entries store, [])
      else .error airtableNotFoundError
    | .create =>
      let newRecs := entries.enum.map (fun p =>
        Rec.mk ("rec" ++ toString (store.length + p.1)) p.2.fields)
      .ok (store ++ newRecs, newRecs)

/-! ### Engine run state and effect trace -/

/-- An observable external effect of the engine: a provider request or a raw
table write (`table[action](entries)` as actually sent). -/
inductive Effect where
  | searchCall (query : String)
  | detailsCall (placeId : String)
  | descCall (slug : String)
  | send (action : TAction) (entries : List Entry)
deriving Repr, DecidableEq

/-- The process state the engine threads: the `notesFieldAvailable` latch
(`src/index.js:120`), the record store contents, and the accumulated effect
trace. -/
structure S where
  notesAvail : Bool
  store : Store
  trace : List Effect
deriving Repr, DecidableEq

/-- Append one effect to the trace. -/
def addTrace (s : S) (e : Effect) : S := { s with trace := s.trace ++ [e] }

/-- The retry payload built inside `performTableAction`
(`src/index.js:259`–`266`): each entry's `Notes` binding removed. -/
def stripNotes (es : List Entry) : List Entry :=
  es.map (fun en =>
    if hasF en.fields "Notes" then { en with fields := delF en.fields "Notes" } else en)

/-- `performTableAction` from `src/index.js:246`: sanitize the payloads
against the latch, send; on a missing-Notes 422, flip the latch, strip
`Notes`, and retry that same write exactly once. -/
def performTableAction (tbl : TableFn) (s : S) (action : TAction)
    (records : List Entry) : S × Except JsError (List Rec) :=
  if records.isEmpty then (s, .ok [])
  else
    let prepared := records.map (fun e =>
      { e with fields := sanitizeOptionalFields s.notesAvail e.fields })
    let s1 := addTrace s (.send action prepared)
    match tbl action prepared s.store with
    | .ok (st, res) => ({ s1 with store := st }, .ok res)
    | .error e =>
      if isMissingNotesFieldError s.notesAvail e then
        let retried := stripNotes prepared
        let s2 := addTrace { s1 with notesAvail := false } (.send action retried)
        match tbl action retried s.store with
        | .ok (st, res) => ({ s2 with store := st }, .ok res)
        | .error e2 => (s2, .error e2)
      else (s1, .error e)

/-- The payload actually handed to a write by `upsertBySlug`
(`src/index.js:276`–`280`): the fields, plus the trimmed slug under `Slug`
unless omitted or empty. -/
def upsertPayload (slug : String) (fields : Fields) (omitSlug : Bool) : Fields :=
  if ¬omitSlug ∧ trimStr slug ≠ "" then setF fields "Slug" (.str (trimStr slug)) else fields

/-- `upsertBySlug` from `src/index.js:274`: update by id when a record id is
known; else find by slug and update; else create. -/
def upsertBySlug (tbl : TableFn) (s : S) (slug : String) (fields : Fields)
    (recordId : Option String) (omitSlug : Bool) : S × Except JsError (Option String) :=
  let sanitizedSlug := trimStr slug
  let payload := upsertPayload slug fields omitSlug
  match recordId with
  | some rid =>
    let (s', r) := performTableAction tbl s .update [⟨some rid, payload⟩]
    (s', r.map (fun _ => some rid))
  | none =>
    let found :=
      if sanitizedSlug ≠ "" then
        s.store.find? (fun r =>
          lowerStr (jsToString (getF r.fields "Slug")) = lowerStr sanitizedSlug)
      else none
    match found with
    | some f =>
      let (s', r) := performTableAction tbl s .update [⟨some f.id, payload⟩]
      (s', r.map (fun _ => some f.id))
    | none =>
      let (s', r) := performTableAction tbl s .create [⟨none, payload⟩]
      (s', r.map (fun created => (created.head?).map Rec.id))

/-! ### Google Places data (`src/index.js:303`–`364`) -/

/-- One entry of `details.address_components`. -/
structure AddressComponent where
  long_name : String
  types : List String
deriving Repr, DecidableEq

/-- One entry of `details.photos`. -/
structure Photo where
  photo_reference : String
  html_attributions : List String
deriving Repr, DecidableEq

/-- The Places details payload, restricted to the fields the engine reads.
Scalar fields are `JSVal` because the engine pipes them through JS
truthiness and numeric coercion. -/
structure PlaceDetails where
  name : JSVal
  formatted_address : JSVal
  lat : JSVal
  lng : JSVal
  website : JSVal
  formatted_phone_number : JSVal
  international_phone_number : JSVal
  types : List String
  price_level : JSVal
  rating : JSVal
  user_ratings_total : JSVal
  address_components : List AddressComponent
  photos : List Photo
  weekday_text : Option (List String)
deriving Repr, DecidableEq

/-- The `get` helper of `extractAddressBits` (`src/index.js:341`): the
`long_name` of the first component carrying the type, else `''`. -/
def addressComponentGet (components : List AddressComponent) (t : String) : String :=
  (((components.find? (fun c => t ∈ c.types)).map AddressComponent.long_name)).getD ""

/-- `extractAddressBits` postcode. -/
def extractPostcode (components : List AddressComponent) : String :=
  addressComponentGet components "postal_code"

/-- `extractAddressBits` city: `get('postal_town') || get('locality') || ''`. -/
def extractCity (components : List AddressComponent) : String :=
  let pt := addressComponentGet components "postal_town"
  if pt ≠ "" then pt else addressComponentGet components "locality"

/-- `buildPhotoUrl` from `src/index.js:349`: empty for a missing reference,
else the photo endpoint URL carrying the reference and the API key.
(`URLSearchParams` percent-encoding of the already URL-safe reference is not
reproduced; no claim inspects the URL's interior.) -/
def buildPhotoUrl (apiKey photoRef : String) : String :=
  if photoRef = "" then ""
  else
    "https://maps.googleapis.com/maps/api/place/photo?maxwidth=1200&photoreference="
      ++ photoRef ++ "&key=" ++ apiKey

/-- `buildPhotoAttribution` from `src/index.js:360`: the attributions joined
with spaces, `''` when none. -/
def buildPhotoAttribution (p : Photo) : String :=
  if p.html_attributions.isEmpty then "" else String.intercalate " " p.html_attributions

/-- The fixed exclusion set for cuisine derivation (`src/index.js:517`). -/
def cuisineExclusions : List String :=
  ["point_of_interest", "establishment", "food", "restaurant"]

/-- `t.replace(/_/g, ' ')`. -/
def replaceUnderscores (t : String) : String :=
  String.mk (t.toList.map (fun c => if c = '_' then ' ' else c))

/-- Cuisine derivation (`src/index.js:515`–`519`): the first provider type
outside the exclusion set (underscores spaced), else the existing field,
else `''`. -/
def deriveCuisine (types : List String) (existing : JSVal) : JSVal :=
  let cands := (types.filter (fun t => t ∉ cuisineExclusions)).map replaceUnderscores
  match cands.head? with
  | some c => if c ≠ "" then .str c else jsOr existing (.str "")
  | none => jsOr existing (.str "")

/-- `JSON.stringify` of a list of strings (`src/index.js:561`); quotes are
escaped, other JSON escapes are not needed for the claims. -/
def jsonStringifyStrings (xs : List String) : String :=
  "[" ++ String.intercalate ","
    (xs.map (fun x => "\"" ++ x.replace "\"" "\\\"" ++ "\"")) ++ "]"

/-! ### Engine configuration and providers -/

/-- The run configuration relevant to the engine: flags and environment
(`src/index.js:24`–`48`, `115`), the clock, and the float parser. -/
structure Config where
  openaiEnabled : Bool
  refreshPhotos : Bool
  statusOptions : List String
  defaultCity : String
  defaultCountry : String
  apiKey : String
  nowISO : String
  parseFloat : String → Option ℚ

/-- The context handed to `generateDescription` (`src/index.js:524`). -/
structure DescCtx where
  name : JSVal
  cuisine : JSVal
  area : String
  slug : String

/-- The external providers: Places text search and details (throwing calls),
and the text-generation provider (its failures are swallowed inside
`generateDescription`, so it is total). -/
structure Provider where
  textSearch : String → Except JsError (Option String)
  details : String → Except JsError (Option PlaceDetails)
  genDesc : DescCtx → String

/-- The value computed by `generateDescription` (`src/index.js:401`): `''`
when the text provider is disabled, else the cleaned provider output. -/
def generateDescriptionValue (cfg : Config) (prov : Provider) (ctx : DescCtx) : String :=
  if ¬cfg.openaiEnabled then "" else trimStr (prov.genDesc ctx)

/-- `generateDescription` with its effect: the provider is only called when
enabled. -/
def generateDescription (cfg : Config) (prov : Provider) (s : S) (ctx : DescCtx) :
    S × String :=
  (if ¬cfg.openaiEnabled then s else addTrace s (.descCall ctx.slug),
   generateDescriptionValue cfg prov ctx)

/-- `findPlaceIdByText` (`src/index.js:304`): issues a text search for
`name, city, country`. -/
def findPlaceIdByText (cfg : Config) (prov : Provider) (s : S) (name : String) :
    S × Except JsError (Option String) :=
  let query := trimStr (name ++ ", " ++ cfg.defaultCity ++ ", " ++ cfg.defaultCountry)
  (addTrace s (.searchCall query), prov.textSearch query)

/-- `getPlaceDetails` (`src/index.js:317`). -/
def getPlaceDetails (prov : Provider) (s : S) (placeId : String) :
    S × Except JsError (Option PlaceDetails) :=
  (addTrace s (.detailsCall placeId), prov.details placeId)

/-! ### The per-record state machine `enrichRecord` (`src/index.js:424`–`591`) -/

/-- A `number | null` result as a field value. -/
def optQToJS : Option ℚ → JSVal
  | some q => .num q
  | none => .nul

/-- `isAlreadyEnriched` (`src/index.js:431`/`485`): the resolved `enriched`
label exists (and is truthy), the stored status is a string, and the two
compare equal after trim + lowercase. -/
def isAlreadyEnrichedB (options : List String) (fields : Fields) : Bool :=
  match pickEnrichmentStatus options "enriched" none with
  | some ev =>
    if ev = "" then false
    else match getF fields "Enrichment Status" with
      | .str st => lowerStr (trimStr st) = lowerStr (trimStr ev)
      | _ => false
  | none => false

/-- `String(err?.message || err)` (`src/index.js:585`); for the plain error
records of this model the object rendering is only reached for an empty
message. -/
def errNotesString (e : JsError) : String :=
  if e.message = "" then "[object Object]" else e.message

/-- The update written when the identifier lookup finds no match
(`src/index.js:452`–`456`): the lifecycle timestamp, plus the resolved
`not_found` label when one is configured. -/
def notFoundUpdate (cfg : Config) (fields : Fields) : Fields :=
  addStatusField
    [("Last Enriched", .str (resolveLastEnrichedValue cfg.nowISO (getF fields "Last Enriched")))]
    (pickEnrichmentStatus cfg.statusOptions "not_found" none)

/-- The update written when the details fetch returns an empty payload
(`src/index.js:471`–`477`). -/
def noDetailsUpdate (cfg : Config) (fields : Fields) (placeId : String) : Fields :=
  addStatusField
    [("Place ID", .str placeId),
     ("Notes", .str "No details returned from Places"),
     ("Last Enriched", .str (resolveLastEnrichedValue cfg.nowISO (getF fields "Last Enriched")))]
    (pickEnrichmentStatus cfg.statusOptions "error" (some "pending"))

/-- The per-record error fallback write (`src/index.js:583`–`588`). -/
def errorFallbackFields (cfg : Config) (fields : Fields) (e : JsError) : Fields :=
  addStatusField
    [("Notes", .str (errNotesString e)),
     ("Last Enriched", .str (resolveLastEnrichedValue cfg.nowISO (getF fields "Last Enriched")))]
    (pickEnrichmentStatus cfg.statusOptions "error" (some "pending"))

/-- The photo URL derived from the first photo reference
(`src/index.js:489`–`490`). -/
def photoUrlOf (cfg : Config) (d : PlaceDetails) : String :=
  match d.photos.head? with
  | some p => buildPhotoUrl cfg.apiKey p.photo_reference
  | none => ""

/-- The photo attribution derived from the first photo (`src/index.js:491`). -/
def photoAttrOf (d : PlaceDetails) : String :=
  match d.photos.head? with
  | some p => buildPhotoAttribution p
  | none => ""

/-- The minimal patch written for a record that is already `enriched`
(`src/index.js:534`–`541`): only `Photo URL`. -/
def minimalPhotoPatch (cfg : Config) (fields : Fields) (d : PlaceDetails) : Fields :=
  [("Photo URL", jsOr (.str (photoUrlOf cfg d)) (jsOr (getF fields "Photo URL") (.str "")))]

/-- The description-generation context (`src/index.js:524`–`529`). -/
def descCtxOf (cfg : Config) (fields : Fields) (d : PlaceDetails) (slug : String) : DescCtx :=
  let city := extractCity d.address_components
  { name := d.name
    cuisine := deriveCuisine d.types (getF fields "Cuisine")
    area := if city ≠ "" then city else cfg.defaultCity
    slug := slug }

/-- The description value used in the full payload (`src/index.js:522`–`530`):
the existing description when non-blank, else the generated one. -/
def descriptionOf (cfg : Config) (prov : Provider) (fields : Fields)
    (d : PlaceDetails) (slug : String) : String :=
  let d0 := clean (getF fields "Description")
  if d0 = "" then generateDescriptionValue cfg prov (descCtxOf cfg fields d slug) else d0

/-- The full merged field set (`src/index.js:546`–`568`): provider data with
existing values as fallbacks, the lifecycle timestamp, and the resolved
`enriched` label when one is configured. -/
def fullPayload (cfg : Config) (fields : Fields) (name slug placeId : String)
    (d : PlaceDetails) (description : String) : Fields :=
  let postcode := extractPostcode d.address_components
  let city := extractCity d.address_components
  addStatusField
    [("Name", jsOr d.name (.str name)),
     ("Slug", .str slug),
     ("Place ID", .str placeId),
     ("Address", jsOr d.formatted_address (jsOr (getF fields "Address") (.str ""))),
     ("City", jsOr (.str city) (jsOr (getF fields "City") (.str ""))),
     ("Postcode", jsOr (.str postcode) (jsOr (getF fields "Postcode") (.str ""))),
     ("Lat", optQToJS (coerceNumericField cfg.parseFloat d.lat (getF fields "Lat") (some 8))),
     ("Lng", optQToJS (coerceNumericField cfg.parseFloat d.lng (getF fields "Lng") (some 8))),
     ("Website", jsOr d.website (jsOr (getF fields "Website") (.str ""))),
     ("Phone", jsOr d.formatted_phone_number (jsOr d.international_phone_number
        (jsOr (getF fields "Phone") (.str "")))),
     ("Cuisine", deriveCuisine d.types (getF fields "Cuisine")),
     ("Price Level", optQToJS (coerceNumericField cfg.parseFloat d.price_level
        (getF fields "Price Level") none)),
     ("Rating", optQToJS (coerceNumericField cfg.parseFloat d.rating
        (getF fields "Rating") none)),
     ("User Ratings", optQToJS (coerceNumericField cfg.parseFloat d.user_ratings_total
        (getF fields "User Ratings") none)),
     ("Opening Hours JSON", .str (jsonStringifyStrings (d.weekday_text.getD []))),
     ("Photo URL", jsOr (.str (photoUrlOf cfg d)) (jsOr (getF fields "Photo URL") (.str ""))),
     ("Photo Attribution", jsOr (.str (photoAttrOf d))
        (jsOr (getF fields "Photo Attribution") (.str ""))),
     ("Description", jsOr (.str description) (jsOr (getF fields "Description") (.str ""))),
     ("Last Enriched", .str (resolveLastEnrichedValue cfg.nowISO (getF fields "Last Enriched")))]
    (pickEnrichmentStatus cfg.statusOptions "enriched" none)

/-- An upsert whose returned id is discarded (`await upsertBySlug(...)` in a
statement position). -/
def upsertUnit (tbl : TableFn) (s : S) (slug : String) (fields : Fields)
    (recordId : Option String) (omitSlug : Bool) : S × Except JsError Unit :=
  let (s', r) := upsertBySlug tbl s slug fields recordId omitSlug
  (s', r.map (fun _ => ()))

/-- Steps 3–4 of `enrichRecord` once details arrived
(`src/index.js:483`–`571`): compute derived fields and the description, then
either the minimal photo patch (record already `enriched`) or the full
payload. -/
def enrichWithDetails (cfg : Config) (prov : Provider) (tbl : TableFn) (s : S)
    (rec : Rec) (slug name : String) (isAlready : Bool) (placeId : String)
    (d : PlaceDetails) : S × Except JsError Unit :=
  let fields := rec.fields
  let (s2, description) :=
    if clean (getF fields "Description") = "" then
      generateDescription cfg prov s (descCtxOf cfg fields d slug)
    else (s, clean (getF fields "Description"))
  if isAlready then
    upsertUnit tbl s2 slug (minimalPhotoPatch cfg fields d) (some rec.id) true
  else
    upsertUnit tbl s2 slug (fullPayload cfg fields name slug placeId d description)
      (some rec.id) false

/-- Step 2 of `enrichRecord` (`src/index.js:463`–`481`): fetch details; an
empty payload records an `error`/`pending` update unless the record is
already `enriched`, in which case it is skipped silently. -/
def enrichWithPlaceId (cfg : Config) (prov : Provider) (tbl : TableFn) (s : S)
    (rec : Rec) (slug name : String) (isAlready : Bool) (placeId : String) :
    S × Except JsError Unit :=
  let (s1, dr) := getPlaceDetails prov s placeId
  match dr with
  | .error e => (s1, .error e)
  | .ok none =>
    if isAlready then (s1, .ok ())
    else
      upsertUnit tbl s1 slug (noDetailsUpdate cfg rec.fields placeId) (some rec.id) false
  | .ok (some d) => enrichWithDetails cfg prov tbl s1 rec slug name isAlready placeId d

/-- The `try` block of `enrichRecord` (`src/index.js:441`–`571`), step 1: an
existing Place ID is reused, else a text search resolves one; no match
records `not_found` unless the record is already `enriched`. -/
def enrichTry (cfg : Config) (prov : Provider) (tbl : TableFn) (s : S)
    (rec : Rec) (slug name : String) (isAlready : Bool) : S × Except JsError Unit :=
  let pid0 := clean (getF rec.fields "Place ID")
  if pid0 ≠ "" then enrichWithPlaceId cfg prov tbl s rec slug name isAlready pid0
  else
    let (s1, r) := findPlaceIdByText cfg prov s name
    match r with
    | .error e => (s1, .error e)
    | .ok none =>
      if isAlready then (s1, .ok ())
      else
        upsertUnit tbl s1 slug (notFoundUpdate cfg rec.fields) (some rec.id) false
    | .ok (some pid) => enrichWithPlaceId cfg prov tbl s1 rec slug name isAlready pid

/-- The slug a record is written under (`src/index.js:427`–`428`): the
cleaned `Slug` field, else the slugified name. -/
def slugOf (fields : Fields) : String :=
  if clean (getF fields "Slug") = "" then toSlug (clean (getF fields "Name"))
  else clean (getF fields "Slug")

/-- `enrichRecord` (`src/index.js:424`): skip records without a name; run the
try block; catch every thrown error at the record boundary except the fatal
Airtable 404 (re-thrown); an already-`enriched` record's failure is skipped
silently, otherwise the error fallback is written (whose own failure
propagates). -/
def enrichRecord (cfg : Config) (prov : Provider) (tbl : TableFn) (s : S)
    (rec : Rec) : S × Option JsError :=
  let fields := rec.fields
  let name := clean (getF fields "Name")
  let slug := slugOf fields
  let isAlready := isAlreadyEnrichedB cfg.statusOptions fields
  if name = "" then (s, none)
  else
    match enrichTry cfg prov tbl s rec slug name isAlready with
    | (s', .ok _) => (s', none)
    | (s', .error e) =>
      if isAirtableNotFound e then (s', some e)
      else if isAlready then (s', none)
      else
        match upsertBySlug tbl s' slug (errorFallbackFields cfg fields e) (some rec.id) false with
        | (s2, .ok _) => (s2, none)
        | (s2, .error e2) => (s2, some e2)

/-- The full merged payload exactly as `enrichRecord` computes it for a
record whose resolved place id is `pid` with details `d`. -/
def fullPayloadOf (cfg : Config) (prov : Provider) (fields : Fields)
    (pid : String) (d : PlaceDetails) : Fields :=
  fullPayload cfg fields (clean (getF fields "Name")) (slugOf fields) pid d
    (descriptionOf cfg prov fields d (slugOf fields))

/-! ### Eligibility query and the batch loop (`src/index.js:593`–`706`) -/

/-- The abstract syntax of the `filterByFormula` expressions the engine
builds: `TRUE()`, `{f} = BLANK()`, `{f} = ''`, `LOWER({f}) = 'lit'`, and
n-ary `OR`/`AND` — mirroring the string construction of
`buildStatusFilterFormula` and `fetchPendingBatch`. -/
inductive Formula where
  | tru
  | isBlank (field : String)
  | eqEmpty (field : String)
  | eqLower (field : String) (lit : String)
  | anyOf (fs : List Formula)
  | allOf (fs : List Formula)

/-- The string contents of a field as an Airtable formula sees it (blank
fields read as the empty string). -/
def fieldFormulaStr (v : JSVal) : String :=
  match v with
  | .str s => s
  | .nul => ""
  | .undef => ""
  | v => jsToString v

mutual

/-- Airtable's evaluation of the formulas above against one record's fields.
Airtable string `=` is case-insensitive (`LOWER` in the generated formulas is
therefore harmless belt-and-braces); comparison against the empty literal is
case-degenerate, so `eqEmpty` compares directly. -/
def evalFormula (flds : Fields) : Formula → Bool
  | .tru => true
  | .isBlank f => isBlankField (getF flds f)
  | .eqEmpty f => fieldFormulaStr (getF flds f) = ""
  | .eqLower f lit => lowerStr (fieldFormulaStr (getF flds f)) = lowerStr lit
  | .anyOf fs => evalFormulaAny flds fs
  | .allOf fs => evalFormulaAll flds fs

/-- `OR(...)` over a list of formulas. -/
def evalFormulaAny (flds : Fields) : List Formula → Bool
  | [] => false
  | f :: fs => evalFormula flds f || evalFormulaAny flds fs

/-- `AND(...)` over a list of formulas. -/
def evalFormulaAll (flds : Fields) : List Formula → Bool
  | [] => true
  | f :: fs => evalFormula flds f && evalFormulaAll flds fs

end

/-- `statusesToReprocess` (`src/index.js:593`). -/
def statusesToReprocess : List String := ["pending", "error", "enriched"]

/-- `buildStatusFilterFormula` (`src/index.js:595`): the status equals one of
the reprocessable labels case-insensitively, or is blank (both blank idioms
are emitted). -/
def buildStatusFilterFormula (statuses : List String) : Formula :=
  .anyOf ((statuses.map (fun st => Formula.eqLower "Enrichment Status" (lowerStr st)))
    ++ [Formula.eqEmpty "Enrichment Status", Formula.isBlank "Enrichment Status"])

/-- The full selection formula of `fetchPendingBatch`
(`src/index.js:604`–`628`): the status filter AND the missing-field/refresh
disjunction.  (The `recheckPredicates` list is never empty, so the dead
`TRUE()` refill is not modelled; the Notes-mentioning filter retry is dead
code too, as the formula never names the Notes column.) -/
def pendingFilterFormula (cfg : Config) : Formula :=
  let recheck := [Formula.isBlank "Place ID", Formula.isBlank "Photo URL"]
    ++ (if cfg.refreshPhotos then [Formula.tru] else [])
    ++ (if cfg.openaiEnabled then
          [Formula.anyOf [Formula.isBlank "Description", Formula.eqEmpty "Description"]]
        else [])
  .allOf [buildStatusFilterFormula statusesToReprocess, .anyOf recheck]

/-- The store's own query facility (`table.select({filterByFormula,
maxRecords})` drained through `eachPage`): the matching records in store
order, truncated at `maxRecords`. -/
def airtableSelect (store : Store) (f : Formula) (maxRecords : ℕ) : List Rec :=
  (store.filter (fun r => evalFormula r.fields f)).take maxRecords

/-- `fetchPendingBatch` (`src/index.js:604`): pushes the selection formula
down to the store's query facility with the batch limit. -/
def fetchPendingBatch (cfg : Config) (store : Store) (limit : ℕ) : List Rec :=
  airtableSelect store (pendingFilterFormula cfg) limit

/-- The eligibility predicate as the specification words it (for comparison
with the formula the code builds): status case-insensitively in
`{pending, error, enriched}` or blank, AND (place id blank OR photo blank OR
(text-generation enabled AND description blank) OR force-refresh active). -/
def specEligible (cfg : Config) (flds : Fields) : Bool :=
  (isBlankField (getF flds "Enrichment Status")
    || lowerStr (fieldFormulaStr (getF flds "Enrichment Status")) ∈ statusesToReprocess)
  && (isBlankField (getF flds "Place ID")
    || isBlankField (getF flds "Photo URL")
    || (cfg.openaiEnabled && isBlankField (getF flds "Description"))
    || cfg.refreshPhotos)

/-- Whether a value has the shape a text/single-select column can hold: a
string or blank. -/
def textValued : JSVal → Bool
  | .str _ => true
  | .nul => true
  | .undef => true
  | _ => false

/-- The per-batch `for` loop of `run` (`src/index.js:683`–`687`): every
record is processed sequentially and counted; a thrown error aborts the loop
before the throwing record is counted. -/
def processBatch (cfg : Config) (prov : Provider) (tbl : TableFn) :
    S → ℕ → List Rec → S × ℕ × Option JsError
  | s, total, [] => (s, total, none)
  | s, total, r :: rs =>
    match enrichRecord cfg prov tbl s r with
    | (s', none) => processBatch cfg prov tbl s' (total + 1) rs
    | (s', some e) => (s', total, some e)

/-- The `while (true)` loop of `run` (`src/index.js:659`–`697`), with explicit
fuel standing for the unbounded iteration count: fetch a batch, stop when
empty, process it, and repeat unless in single-shot mode. -/
def runLoop (cfg : Config) (prov : Provider) (tbl : TableFn) (maxPerBatch : ℕ)
    (runContinuously : Bool) : ℕ → S → ℕ → S × ℕ × Option JsError
  | 0, s, total => (s, total, none)
  | fuel + 1, s, total =>
    let batch := fetchPendingBatch cfg s.store maxPerBatch
    if batch.isEmpty then (s, total, none)
    else
      match processBatch cfg prov tbl s total batch with
      | (s', total', some e) => (s', total', some e)
      | (s', total', none) =>
        if runContinuously then runLoop cfg prov tbl maxPerBatch runContinuously fuel s' total'
        else (s', total', none)

/-- The process exit code derived from `run().catch(...)`
(`src/index.js:699`–`706`): a rejected run exits 1, otherwise 0. -/
def runExitCode (result : S × ℕ × Option JsError) : ℕ :=
  match result.2.2 with
  | some _ => 1
  | none => 0

/-! ### The send trace -/

/-- The raw table writes contained in a trace, in order. -/
def sends : List Effect → List (TAction × List Entry)
  | [] => []
  | .send a es :: tr => (a, es) :: sends tr
  | .searchCall _ :: tr => sends tr
  | .detailsCall _ :: tr => sends tr
  | .descCall _ :: tr => sends tr

/-- The first raw table write of a trace. -/
def firstSend (tr : List Effect) : Option (TAction × List Entry) := (sends tr).head?

/-- Whether any entry of a write payload still carries a `Notes` binding. -/
def hasNotesEntry (es : List Entry) : Bool := es.any (fun e => hasF e.fields "Notes")

/-- How many raw sends of a trace still carried a `Notes` binding. -/
def notesSendCount (tr : List Effect) : ℕ :=
  (sends tr).countP (fun p => hasNotesEntry p.2)

/-- A run's raw write sequence, abstracted: successive `performTableAction`
calls threading the process state (latch, store, trace). -/
def runWrites (tbl : TableFn) : S → List (TAction × List Entry) → S
  | s, [] => s
  | s, w :: ws => runWrites tbl (performTableAction tbl s w.1 w.2).1 ws

/-- The latch invariant: either the Notes field is still believed available
and no sent payload has carried Notes into a rejection, or the latch has
tripped and at most one sent payload ever carried Notes. -/
def notesLatchInv (s : S) : Prop :=
  (s.notesAvail = true ∧ notesSendCount s.trace = 0) ∨
    (s.notesAvail = false ∧ notesSendCount s.trace ≤ 1)

/-! ### Concrete fixtures shared by the claim witnesses -/

/-- A float parser that parses nothing (all theorems hold for an arbitrary
parser; witnesses use this trivial one). -/
def witnessParse : String → Option ℚ := fun _ => none

/-- A run configuration with the default status options, text generation on,
force-refresh off. -/
def cfgDefault : Config :=
  { openaiEnabled := true, refreshPhotos := false
    statusOptions := defaultStatusOptions
    defaultCity := "London", defaultCountry := "UK"
    apiKey := "KEY", nowISO := "2026-10-12T10:00:00.000Z"
    parseFloat := witnessParse }

/-- A run configuration whose store uses Spanish status labels, so no
internal token matches. -/
def cfgSpanish : Config :=
  { cfgDefault with statusOptions := ["Pendiente", "Hecho"] }

/-- The default configuration with force-refresh active. -/
def cfgRefresh : Config :=
  { cfgDefault with refreshPhotos := true }

/-- A details payload as returned by the Places details endpoint. -/
def detailsFixture : PlaceDetails :=
  { name := .str "Cafe X", formatted_address := .str "1 Road, London"
    lat := .num (515 / 10), lng := .num (-12345678912 / 100000000000)
    website := .str "https://cafex.example"
    formatted_phone_number := .str "020 1234 5678"
    international_phone_number := .undef
    types := ["point_of_interest", "italian_restaurant"]
    price_level := .num 2, rating := .num (45 / 10), user_ratings_total := .num 100
    address_components := [⟨"SW1", ["postal_code"]⟩, ⟨"London", ["postal_town"]⟩]
    photos := [⟨"PHREF", ["<a>attr</a>"]⟩]
    weekday_text := some ["Monday: 9-5"] }

/-- A provider that resolves place `p1` to the fixture details, finds no
text-search match, and generates a fixed blurb. -/
def provFixture : Provider :=
  { textSearch := fun _ => .ok none
    details := fun pid => if pid = "p1" then .ok (some detailsFixture) else .ok none
    genDesc := fun _ => "A lively corner of the city. " }

/-- A transient provider fault: HTTP 500, not an Airtable 404. -/
def errNetwork : JsError :=
  { statusCode := some 500, errorCode := none, message := "network down" }

/-- A provider whose details endpoint always throws `errNetwork`. -/
def provErrorFixture : Provider :=
  { textSearch := fun _ => .ok none
    details := fun _ => .error errNetwork
    genDesc := fun _ => "" }

/-- A pending record with no place id (its lookup will be attempted). -/
def recPendingNoPid : Rec :=
  { id := "r2"
    fields := [("Name", .str "Cafe X"), ("Slug", .str "cafe-x"),
      ("Enrichment Status", .str "pending")] }

/-- An already-`enriched` record whose description is blank but whose photo
and place id are present. -/
def recEnrichedNoDesc : Rec :=
  { id := "r1"
    fields := [("Name", .str "Cafe X"), ("Slug", .str "cafe-x"),
      ("Enrichment Status", .str "enriched"), ("Place ID", .str "p1"),
      ("Photo URL", .str "http://old")] }

/-! ### Basic lemmas about the field-set operations -/

theorem getF_setF_self (fs : Fields) (k : String) (v : JSVal) :
    getF (setF fs k v) k = v := by
  induction fs with
  | nil => simp [setF, getF, List.lookup]
  | cons p rest ih =>
    by_cases h : p.1 = k
    · simp [setF, h, getF, List.lookup]
    · have hb : (k == p.1) = false := beq_eq_false_iff_ne.mpr (Ne.symm h)
      simpa [setF, h, getF, List.lookup, hb] using ih

theorem getF_setF_ne (fs : Fields) (k k' : String) (v : JSVal) (hne : k' ≠ k) :
    getF (setF fs k v) k' = getF fs k' := by
  induction fs with
  | nil =>
    have hb : (k' == k) = false := beq_eq_false_iff_ne.mpr hne
    simp [setF, getF, List.lookup, hb]
  | cons p rest ih =>
    by_cases h : p.1 = k
    · have hb : (k' == p.1) = false := beq_eq_false_iff_ne.mpr (h ▸ hne)
      have hb' : (k' == k) = false := beq_eq_false_iff_ne.mpr hne
      simp [setF, h, getF, List.lookup, hb, hb']
    · by_cases h2 : k' = p.1
      · simp [setF, h, getF, List.lookup, h2]
      · have hb : (k' == p.1) = false := beq_eq_false_iff_ne.mpr h2
        simpa [setF, h, getF, List.lookup, hb] using ih

theorem hasF_setF_ne (fs : Fields) (k k' : String) (v : JSVal) (hne : k' ≠ k) :
    hasF (setF fs k v) k' = hasF fs k' := by
  induction fs with
  | nil =>
    have hb : (k' == k) = false := beq_eq_false_iff_ne.mpr hne
    simp [setF, hasF, List.lookup, hb]
  | cons p rest ih =>
    by_cases h : p.1 = k
    · have hb : (k' == p.1) = false := beq_eq_false_iff_ne.mpr (h ▸ hne)
      have hb' : (k' == k) = false := beq_eq_false_iff_ne.mpr hne
      simp [setF, h, hasF, List.lookup, hb, hb']
    · by_cases h2 : k' = p.1
      · simp [setF, h, hasF, List.lookup, h2]
      · have hb : (k' == p.1) = false := beq_eq_false_iff_ne.mpr h2
        simpa [setF, h, hasF, List.lookup, hb] using ih

theorem hasF_delF_self (fs : Fields) (k : String) : hasF (delF fs k) k = false := by
  unfold hasF delF
  induction fs with
  | nil => rfl
  | cons a l ih =>
    by_cases h : a.1 = k
    · simpa [List.filter, h] using ih
    · have hb : (k == a.1) = false := beq_eq_false_iff_ne.mpr (Ne.symm h)
      simpa [List.filter, h, List.lookup, hb] using ih

theorem mergeF_nil (base : Fields) : mergeF base [] = base := rfl

theorem mergeF_cons (base : Fields) (k : String) (v : JSVal) (rest : Fields) :
    mergeF base ((k, v) :: rest) = mergeF (setF base k v) rest := rfl

/-- Reading an untouched key through a patch: every key of the patch differs
from `k'`, so the merged record agrees with the base. -/
theorem getF_mergeF_ne (patch : Fields) (base : Fields) (k' : String)
    (h : ∀ p ∈ patch, p.1 ≠ k') : getF (mergeF base patch) k' = getF base k' := by
  induction patch generalizing base with
  | nil => rfl
  | cons a rest ih =>
    cases a with
    | mk k v =>
      rw [mergeF_cons]
      rw [ih _ (fun p hp => h p (List.mem_cons_of_mem _ hp))]
      exact getF_setF_ne _ _ _ _ (fun he => h (k, v) (List.mem_cons_self _ _) he.symm)

theorem hasF_addStatusField_ne (u : Fields) (st : Option String) (k : String)
    (hk : k ≠ "Enrichment Status") : hasF (addStatusField u st) k = hasF u k := by
  unfold addStatusField
  cases st with
  | none => rfl
  | some ev =>
    show hasF (if ev = "" then u else setF u "Enrichment Status" (.str ev)) k = hasF u k
    by_cases he : ev = ""
    · rw [if_pos he]
    · rw [if_neg he]
      exact hasF_setF_ne _ _ _ _ hk

theorem getF_addStatusField_ne (u : Fields) (st : Option String) (k : String)
    (hk : k ≠ "Enrichment Status") : getF (addStatusField u st) k = getF u k := by
  unfold addStatusField
  cases st with
  | none => rfl
  | some ev =>
    show getF (if ev = "" then u else setF u "Enrichment Status" (.str ev)) k = getF u k
    by_cases he : ev = ""
    · rw [if_pos he]
    · rw [if_neg he]
      exact getF_setF_ne _ _ _ _ hk

theorem getF_upsertPayload_ne (slug : String) (fs : Fields) (om : Bool) (k : String)
    (hk : k ≠ "Slug") : getF (upsertPayload slug fs om) k = getF fs k := by
  unfold upsertPayload
  split
  · exact getF_setF_ne _ _ _ _ hk
  · rfl

/-- Sanitizing a payload that carries no `Notes` binding is the identity,
whatever the latch says. -/
theorem sanitize_of_no_notes (na : Bool) (fs : Fields) (h : hasF fs "Notes" = false) :
    sanitizeOptionalFields na fs = fs := by
  unfold sanitizeOptionalFields
  rw [if_neg]
  intro hc
  rw [h] at hc
  exact Bool.false_ne_true hc.2

theorem upsertPayload_no_notes (slug : String) (fs : Fields) (omitSlug : Bool)
    (h : hasF fs "Notes" = false) :
    hasF (upsertPayload slug fs omitSlug) "Notes" = false := by
  unfold upsertPayload
  split
  · rw [hasF_setF_ne _ _ _ _ (by decide)]
    exact h
  · exact h

theorem fullPayload_no_notes (cfg : Config) (fields : Fields)
    (name slug placeId : String) (d : PlaceDetails) (description : String) :
    hasF (fullPayload cfg fields name slug placeId d description) "Notes" = false := by
  unfold fullPayload
  rw [hasF_addStatusField_ne _ _ _ (by decide)]
  rfl

theorem sends_append (a b : List Effect) : sends (a ++ b) = sends a ++ sends b := by
  induction a with
  | nil => rfl
  | cons e tr ih => cases e <;> simp [sends, ih]

theorem notesSendCount_append (a b : List Effect) :
    notesSendCount (a ++ b) = notesSendCount a + notesSendCount b := by
  unfold notesSendCount
  rw [sends_append, List.countP_append]

/-! ### Trace structure of the write paths -/

theorem performTableAction_first_send (tbl : TableFn) (s : S) (a : TAction)
    (records : List Entry) (hne : records ≠ []) :
    ∃ extra, sends (performTableAction tbl s a records).1.trace =
      sends s.trace ++
        (a, records.map (fun e =>
          { e with fields := sanitizeOptionalFields s.notesAvail e.fields })) :: extra := by
  unfold performTableAction
  rw [if_neg (by simpa using hne)]
  cases htbl : tbl a (records.map (fun e =>
      { e with fields := sanitizeOptionalFields s.notesAvail e.fields })) s.store with
  | ok r =>
    refine ⟨[], ?_⟩
    simp [htbl, addTrace, sends_append, sends]
  | error e =>
    by_cases hm : isMissingNotesFieldError s.notesAvail e = true
    · cases htbl2 : tbl a (stripNotes (records.map (fun e =>
          { e with fields := sanitizeOptionalFields s.notesAvail e.fields }))) s.store with
      | ok r =>
        refine ⟨[(a, stripNotes (records.map (fun e =>
          { e with fields := sanitizeOptionalFields s.notesAvail e.fields })))], ?_⟩
        simp [htbl, hm, htbl2, addTrace, sends_append, sends]
      | error e2 =>
        refine ⟨[(a, stripNotes (records.map (fun e =>
          { e with fields := sanitizeOptionalFields s.notesAvail e.fields })))], ?_⟩
        simp [htbl, hm, htbl2, addTrace, sends_append, sends]
    · refine ⟨[], ?_⟩
      simp [htbl, hm, addTrace, sends_append, sends]

theorem performTableAction_trace_mono (tbl : TableFn) (s : S) (a : TAction)
    (records : List Entry) :
    ∃ post, (performTableAction tbl s a records).1.trace = s.trace ++ post := by
  unfold performTableAction
  by_cases hne : records.isEmpty = true
  · rw [if_pos hne]
    exact ⟨[], by simp⟩
  · rw [if_neg hne]
    cases htbl : tbl a (records.map (fun e =>
        { e with fields := sanitizeOptionalFields s.notesAvail e.fields })) s.store with
    | ok r =>
      refine ⟨[.send a (records.map (fun e =>
        { e with fields := sanitizeOptionalFields s.notesAvail e.fields }))], ?_⟩
      simp [htbl, addTrace]
    | error e =>
      by_cases hm : isMissingNotesFieldError s.notesAvail e = true
      · cases htbl2 : tbl a (stripNotes (records.map (fun e =>
            { e with fields := sanitizeOptionalFields s.notesAvail e.fields }))) s.store with
        | ok r =>
          refine ⟨[.send a (records.map (fun e =>
              { e with fields := sanitizeOptionalFields s.notesAvail e.fields })),
            .send a (stripNotes (records.map (fun e =>
              { e with fields := sanitizeOptionalFields s.notesAvail e.fields })))], ?_⟩
          simp [htbl, hm, htbl2, addTrace]
        | error e2 =>
          refine ⟨[.send a (records.map (fun e =>
              { e with fields := sanitizeOptionalFields s.notesAvail e.fields })),
            .send a (stripNotes (records.map (fun e =>
              { e with fields := sanitizeOptionalFields s.notesAvail e.fields })))], ?_⟩
          simp [htbl, hm, htbl2, addTrace]
      · refine ⟨[.send a (records.map (fun e =>
          { e with fields := sanitizeOptionalFields s.notesAvail e.fields }))], ?_⟩
        simp [htbl, hm, addTrace]

theorem upsert_firstSend (tbl : TableFn) (s : S) (slug : String) (payload : Fields)
    (rid : String) (om : Bool) (hs : sends s.trace = []) :
    ∃ extra, sends (upsertBySlug tbl s slug payload (some rid) om).1.trace =
      (TAction.update, [⟨some rid,
        sanitizeOptionalFields s.notesAvail (upsertPayload slug payload om)⟩]) :: extra := by
  unfold upsertBySlug
  obtain ⟨extra, h⟩ := performTableAction_first_send tbl s .update
    [⟨some rid, upsertPayload slug payload om⟩] (by simp)
  cases hp : performTableAction tbl s .update [⟨some rid, upsertPayload slug payload om⟩] with
  | mk s3 r =>
    rw [hp] at h
    rw [hs, List.nil_append] at h
    refine ⟨extra, ?_⟩
    simp only [hp]
    simpa using h

theorem upsert_trace_mono (tbl : TableFn) (s : S) (slug : String) (payload : Fields)
    (recordId : Option String) (om : Bool) :
    ∃ post, (upsertBySlug tbl s slug payload recordId om).1.trace = s.trace ++ post := by
  unfold upsertBySlug
  cases recordId with
  | some rid =>
    obtain ⟨post, h⟩ := performTableAction_trace_mono tbl s .update
      [⟨some rid, upsertPayload slug payload om⟩]
    cases hp : performTableAction tbl s .update [⟨some rid, upsertPayload slug payload om⟩] with
    | mk s3 r =>
      rw [hp] at h
      exact ⟨post, by simp only [hp]; simpa using h⟩
  | none =>
    by_cases hns : trimStr slug ≠ ""
    · cases hf : (if trimStr slug ≠ "" then
          s.store.find? (fun r =>
            lowerStr (jsToString (getF r.fields "Slug")) = lowerStr (trimStr slug))
        else none) with
      | some f =>
        obtain ⟨post, h⟩ := performTableAction_trace_mono tbl s .update
          [⟨some f.id, upsertPayload slug payload om⟩]
        cases hp : performTableAction tbl s .update [⟨some f.id, upsertPayload slug payload om⟩] with
        | mk s3 r =>
          rw [hp] at h
          exact ⟨post, by simp only [hf, hp]; simpa using h⟩
      | none =>
        obtain ⟨post, h⟩ := performTableAction_trace_mono tbl s .create
          [⟨none, upsertPayload slug payload om⟩]
        cases hp : performTableAction tbl s .create [⟨none, upsertPayload slug payload om⟩] with
        | mk s3 r =>
          rw [hp] at h
          exact ⟨post, by simp only [hf, hp]; simpa using h⟩
    · obtain ⟨post, h⟩ := performTableAction_trace_mono tbl s .create
        [⟨none, upsertPayload slug payload om⟩]
      cases hp : performTableAction tbl s .create [⟨none, upsertPayload slug payload om⟩] with
      | mk s3 r =>
        rw [hp] at h
        refine ⟨post, ?_⟩
        simp only [if_neg hns, hp]
        simpa using h

theorem upsertUnit_fst (tbl : TableFn) (s : S) (slug : String) (fields : Fields)
    (recordId : Option String) (om : Bool) :
    (upsertUnit tbl s slug fields recordId om).1 =
      (upsertBySlug tbl s slug fields recordId om).1 := by
  unfold upsertUnit
  cases h : upsertBySlug tbl s slug fields recordId om with
  | mk s' r => simp [h]

/-- Catching behaviour of `enrichRecord` around its try block: whatever the
write outcome, the first raw send of the record's run is the first raw send
of the try block. -/
theorem enrichRecord_firstSend_generic (cfg : Config) (prov : Provider) (tbl : TableFn)
    (s : S) (rec : Rec) (x : TAction × List Entry) (extra : List (TAction × List Entry))
    (hname : clean (getF rec.fields "Name") ≠ "")
    (hfs : sends (enrichTry cfg prov tbl s rec (slugOf rec.fields)
      (clean (getF rec.fields "Name"))
      (isAlreadyEnrichedB cfg.statusOptions rec.fields)).1.trace = x :: extra) :
    firstSend (enrichRecord cfg prov tbl s rec).1.trace = some x := by
  unfold enrichRecord
  simp only [if_neg hname]
  cases ht : enrichTry cfg prov tbl s rec (slugOf rec.fields)
      (clean (getF rec.fields "Name"))
      (isAlreadyEnrichedB cfg.statusOptions rec.fields) with
  | mk s3 r =>
    rw [ht] at hfs
    cases r with
    | ok a => simp [ht, firstSend, hfs]
    | error e =>
      by_cases h404 : isAirtableNotFound e = true
      · simp [ht, h404, firstSend, hfs]
      · by_cases hA2 : isAlreadyEnrichedB cfg.statusOptions rec.fields = true
        · simp [ht, h404, hA2, firstSend, hfs]
        · obtain ⟨post, hm⟩ := upsert_trace_mono tbl s3 (slugOf rec.fields)
            (errorFallbackFields cfg rec.fields e) (some rec.id) false
          cases hu2 : upsertBySlug tbl s3 (slugOf rec.fields)
              (errorFallbackFields cfg rec.fields e) (some rec.id) false with
          | mk s4 r2 =>
            rw [hu2] at hm
            have hm' : s4.trace = s3.trace ++ post := hm
            have hfs' : sends s3.trace = x :: extra := hfs
            cases r2 <;>
              simp [ht, h404, hA2, hu2, firstSend, sends_append, hm', hfs']

/-- Symbolic run of the try block for a record whose place id is present and
whose details call succeeds: the first raw send is the step-4 write — the
minimal photo patch when the record is already `enriched`, the full merged
payload otherwise. -/
theorem enrichTry_sends_of_details (cfg : Config) (prov : Provider) (tbl : TableFn)
    (s : S) (rec : Rec) (slug name : String) (isA : Bool) (pid : String) (d : PlaceDetails)
    (hs : sends s.trace = [])
    (hpid : clean (getF rec.fields "Place ID") = pid)
    (hpne : pid ≠ "")
    (hdet : prov.details pid = .ok (some d)) :
    ∃ extra, sends (enrichTry cfg prov tbl s rec slug name isA).1.trace =
      (TAction.update, [⟨some rec.id,
        sanitizeOptionalFields s.notesAvail
          (upsertPayload slug
            (if isA then minimalPhotoPatch cfg rec.fields d
             else fullPayload cfg rec.fields name slug pid d
               (descriptionOf cfg prov rec.fields d slug))
            isA)⟩]) :: extra := by
  unfold enrichTry enrichWithPlaceId enrichWithDetails getPlaceDetails
    generateDescription
  simp only [hpid, hdet, hpne, ne_eq, not_false_eq_true, ite_true, if_pos,
    descriptionOf]
  by_cases hd : clean (getF rec.fields "Description") = "" <;>
    by_cases hoa : cfg.openaiEnabled = true <;>
    cases isA <;>
    simp only [hd, hoa, ite_true, ite_false, if_true, if_false,
      Bool.false_eq_true, if_pos, not_true_eq_false, not_false_eq_true,
      Bool.true_eq_false] <;>
  · rw [upsertUnit_fst]
    exact upsert_firstSend tbl _ _ _ rec.id _ (by simp [addTrace, sends_append, sends, hs])

theorem applyUpdateEntries_single (rid : String) (patch : Fields) (store : Store) :
    applyUpdateEntries [⟨some rid, patch⟩] store =
      store.map (fun r =>
        if r.id = rid then { r with fields := mergeF r.fields patch } else r) := by
  unfold applyUpdateEntries
  apply List.map_congr_left
  intro r hr
  by_cases h : r.id = rid
  · simp [List.find?_cons, h]
  · have hne : ¬(some rid = some r.id) := by
      intro he
      exact h (Option.some.inj he).symm
    simp [List.find?_cons, hne, h]

theorem airtableTable_update_ok (nc : Bool) (entries : List Entry) (store : Store)
    (hno : entries.any (fun e => hasF e.fields "Notes") = false)
    (hall : (entries.all fun e => match e.id with
        | some i => store.any (fun r => r.id = i)
        | none => false) = true) :
    airtableTable nc .update entries store = .ok (applyUpdateEntries entries store, []) := by
  unfold airtableTable
  have hcond : ¬(¬nc = true ∧ entries.any (fun e => hasF e.fields "Notes") = true) := by
    intro hc
    rw [hno] at hc
    exact Bool.false_ne_true hc.2
  rw [if_neg hcond]
  show (if (entries.all fun e => match e.id with
      | some i => store.any (fun r => r.id = i)
      | none => false) = true then
    Except.ok (applyUpdateEntries entries store, ([] : List Rec))
  else Except.error airtableNotFoundError) = _
  rw [if_pos hall]

/-- The `not_found` write payload, concretely: lifecycle timestamp, the
`not_found` label (default options), and the slug key. -/
theorem c3_payload_shape (cfg : Config) (rec : Rec)
    (hopt : cfg.statusOptions = defaultStatusOptions)
    (ht : trimStr (slugOf rec.fields) ≠ "") :
    upsertPayload (slugOf rec.fields) (notFoundUpdate cfg rec.fields) false =
      [("Last Enriched",
         .str (resolveLastEnrichedValue cfg.nowISO (getF rec.fields "Last Enriched"))),
       ("Enrichment Status", .str "not_found"),
       ("Slug", .str (trimStr (slugOf rec.fields)))] := by
  unfold upsertPayload notFoundUpdate
  rw [hopt]
  rw [if_pos (And.intro (by simp) ht)]
  rfl

/-- Full symbolic run of `enrichRecord` for a record whose lookup returns no
identifier (default status options, record not already enriched): one write,
and the store updated by merging the `not_found` payload into the record. -/
theorem c3_run (cfg : Config) (prov : Provider) (nc na : Bool)
    (store : Store) (rec : Rec)
    (hopt : cfg.statusOptions = defaultStatusOptions)
    (hname : clean (getF rec.fields "Name") ≠ "")
    (hpid0 : clean (getF rec.fields "Place ID") = "")
    (hA : isAlreadyEnrichedB cfg.statusOptions rec.fields = false)
    (ht : trimStr (slugOf rec.fields) ≠ "")
    (hsearch : prov.textSearch (trimStr (clean (getF rec.fields "Name") ++ ", " ++
      cfg.defaultCity ++ ", " ++ cfg.defaultCountry)) = .ok none)
    (hin : store.any (fun r => r.id = rec.id) = true) :
    enrichRecord cfg prov (airtableTable nc) ⟨na, store, []⟩ rec =
      (⟨na,
        store.map (fun r =>
          if r.id = rec.id then
            { r with fields := (mergeF r.fields
                (upsertPayload (slugOf rec.fields) (notFoundUpdate cfg rec.fields) false)) }
          else r),
        [.searchCall (trimStr (clean (getF rec.fields "Name") ++ ", " ++
            cfg.defaultCity ++ ", " ++ cfg.defaultCountry)),
         .send .update [⟨some rec.id,
           upsertPayload (slugOf rec.fields) (notFoundUpdate cfg rec.fields) false⟩]]⟩,
       none) := by
  have hpay := c3_payload_shape cfg rec hopt ht
  have hno : hasF (upsertPayload (slugOf rec.fields) (notFoundUpdate cfg rec.fields) false)
      "Notes" = false := by
    rw [hpay]
    rfl
  have h2 : ∀ b : Bool, sanitizeOptionalFields b
      (upsertPayload (slugOf rec.fields) (notFoundUpdate cfg rec.fields) false) =
      upsertPayload (slugOf rec.fields) (notFoundUpdate cfg rec.fields) false :=
    fun b => sanitize_of_no_notes b _ hno
  have hok : airtableTable nc .update
      [⟨some rec.id, upsertPayload (slugOf rec.fields) (notFoundUpdate cfg rec.fields) false⟩]
      store = .ok (applyUpdateEntries
        [⟨some rec.id, upsertPayload (slugOf rec.fields) (notFoundUpdate cfg rec.fields) false⟩]
        store, []) :=
    airtableTable_update_ok nc _ store (by simp [hno]) (by simp [hin])
  unfold enrichRecord enrichTry findPlaceIdByText upsertUnit upsertBySlug performTableAction
  simp only [hpid0, hname, hsearch, hA, ne_eq, not_true_eq_false, not_false_eq_true,
    ite_true, ite_false, if_pos, if_false, Bool.false_eq_true, ite_not, addTrace,
    List.map, List.isEmpty_cons, h2, hok, applyUpdateEntries_single, Except.map,
    List.nil_append]
  simp

/-- A record whose status is the `not_found` label never satisfies the
eligibility formula, whatever the run flags. -/
theorem notfound_not_eligible (cfg2 : Config) (flds : Fields)
    (h : getF flds "Enrichment Status" = .str "not_found") :
    evalFormula flds (pendingFilterFormula cfg2) = false := by
  have hhead : evalFormulaAny flds
      ((statusesToReprocess.map (fun st =>
        Formula.eqLower "Enrichment Status" (lowerStr st)))
        ++ [Formula.eqEmpty "Enrichment Status", Formula.isBlank "Enrichment Status"])
      = false := by
    simp only [statusesToReprocess, List.map, List.cons_append, List.nil_append,
      evalFormulaAny, evalFormula, h]
    decide
  unfold pendingFilterFormula buildStatusFilterFormula
  simp only [evalFormula, evalFormulaAll, hhead, Bool.false_and, Bool.and_true]

theorem airtableTable_true_update_ok (entries : List Entry) (store : Store)
    (hall : (entries.all fun e => match e.id with
        | some i => store.any (fun r => r.id = i)
        | none => false) = true) :
    airtableTable true .update entries store = .ok (applyUpdateEntries entries store, []) := by
  unfold airtableTable
  rw [if_neg (fun hc => absurd rfl hc.1)]
  show (if (entries.all fun e => match e.id with
      | some i => store.any (fun r => r.id = i)
      | none => false) = true then
    Except.ok (applyUpdateEntries entries store, ([] : List Rec))
  else Except.error airtableNotFoundError) = _
  rw [if_pos hall]

/-- Full symbolic run of `enrichRecord` when the details call throws a
non-404 error at a record that is not already enriched: the fallback fields
are written and the error is swallowed. -/
theorem c6_run_error_fallback (cfg : Config) (prov : Provider)
    (store : Store) (rec : Rec) (pid : String) (e : JsError)
    (hname : clean (getF rec.fields "Name") ≠ "")
    (hpid : clean (getF rec.fields "Place ID") = pid)
    (hpne : pid ≠ "")
    (herr : prov.details pid = .error e)
    (h404 : isAirtableNotFound e = false)
    (hA : isAlreadyEnrichedB cfg.statusOptions rec.fields = false)
    (hin : store.any (fun r => r.id = rec.id) = true) :
    enrichRecord cfg prov (airtableTable true) ⟨true, store, []⟩ rec =
      (⟨true,
        store.map (fun r =>
          if r.id = rec.id then
            { r with fields := (mergeF r.fields
                (upsertPayload (slugOf rec.fields)
                  (errorFallbackFields cfg rec.fields e) false)) }
          else r),
        [.detailsCall pid,
         .send .update [⟨some rec.id,
           upsertPayload (slugOf rec.fields) (errorFallbackFields cfg rec.fields e) false⟩]]⟩,
       none) := by
  have hok := airtableTable_true_update_ok
    [⟨some rec.id, upsertPayload (slugOf rec.fields)
      (errorFallbackFields cfg rec.fields e) false⟩] store (by simp [hin])
  have hsan : ∀ fs : Fields, sanitizeOptionalFields true fs = fs := fun fs => by
    simp [sanitizeOptionalFields]
  unfold enrichRecord enrichTry enrichWithPlaceId getPlaceDetails upsertBySlug
    performTableAction
  simp only [hpid, hpne, hname, herr, h404, hA, ne_eq, not_true_eq_false,
    not_false_eq_true, ite_true, ite_false, if_pos, if_false, Bool.false_eq_true,
    ite_not, addTrace, List.map, List.isEmpty_cons, hsan, hok,
    applyUpdateEntries_single, Except.map, List.nil_append]
  simp

/-- The same throw at a record that is already enriched: skipped silently,
no write. -/
theorem c6_run_skip (cfg : Config) (prov : Provider) (tbl : TableFn)
    (na : Bool) (store : Store) (rec : Rec) (pid : String) (e : JsError)
    (hname : clean (getF rec.fields "Name") ≠ "")
    (hpid : clean (getF rec.fields "Place ID") = pid)
    (hpne : pid ≠ "")
    (herr : prov.details pid = .error e)
    (h404 : isAirtableNotFound e = false)
    (hA : isAlreadyEnrichedB cfg.statusOptions rec.fields = true) :
    enrichRecord cfg prov tbl ⟨na, store, []⟩ rec =
      (⟨na, store, [.detailsCall pid]⟩, none) := by
  unfold enrichRecord enrichTry enrichWithPlaceId getPlaceDetails
  simp only [hpid, hpne, hname, herr, h404, hA, ne_eq, not_true_eq_false,
    not_false_eq_true, ite_true, ite_false, Bool.false_eq_true, addTrace,
    List.nil_append]

/-- An Airtable 404 is re-thrown out of `enrichRecord`. -/
theorem c6_run_rethrow (cfg : Config) (prov : Provider) (tbl : TableFn)
    (na : Bool) (store : Store) (rec : Rec) (pid : String) (e : JsError)
    (hname : clean (getF rec.fields "Name") ≠ "")
    (hpid : clean (getF rec.fields "Place ID") = pid)
    (hpne : pid ≠ "")
    (herr : prov.details pid = .error e)
    (h404 : isAirtableNotFound e = true) :
    enrichRecord cfg prov tbl ⟨na, store, []⟩ rec =
      (⟨na, store, [.detailsCall pid]⟩, some e) := by
  unfold enrichRecord enrichTry enrichWithPlaceId getPlaceDetails
  simp only [hpid, hpne, hname, herr, h404, ne_eq, not_true_eq_false,
    not_false_eq_true, ite_true, ite_false, Bool.false_eq_true, addTrace,
    List.nil_append]

/-! ### Rounding is a fixed point of itself -/

theorem jsRound_intCast (m : ℤ) : jsRound (m : ℚ) = m := by
  unfold jsRound
  rw [Int.floor_int_add]
  norm_num

theorem roundToPrecision_some (v : ℚ) (k : ℤ) :
    roundToPrecision v (some k) = (jsRound (v * 10 ^ k) : ℚ) / 10 ^ k := rfl

theorem roundToPrecision_idem (v : ℚ) (p : Option ℤ) :
    roundToPrecision (roundToPrecision v p) p = roundToPrecision v p := by
  cases p with
  | none => rfl
  | some k =>
    have hf : (10 : ℚ) ^ k ≠ 0 := zpow_ne_zero k (by norm_num)
    rw [roundToPrecision_some, roundToPrecision_some, div_mul_cancel₀ _ hf, jsRound_intCast]

/-! ## The claims -/

/-- **C9.** For every pair of inputs `x`, `y` and precision `p`, the numeric
coercion with rounding is idempotent: feeding the (non-null) output of
`coerceNumericField x y p` back in as the incoming value with the same
precision returns that output unchanged — the rounded value is a fixed point
of the multiply-round-divide rounding. -/
theorem c9_coerceNumeric_idempotent (parse : String → Option ℚ) (x y : JSVal)
    (p : Option ℤ) (q : ℚ) (h : coerceNumericField parse x y p = some q) :
    coerceNumericField parse (.num q) y p = some q := by
  unfold coerceNumericField at h ⊢
  cases hc : preferNumeric parse x y with
  | none =>
    simp only [hc] at h
    exact Option.noConfusion h
  | some c =>
    simp only [hc, Option.some.injEq] at h
    have hq : preferNumeric parse (JSVal.num q) y = some q := rfl
    simp only [hq, Option.some.injEq]
    rw [← h, roundToPrecision_idem]

/-- The concrete rounding computation backing the C9 witness: `1/3` rounded
to two decimals is `33/100`. -/
theorem c9_round_value :
    coerceNumericField witnessParse (.num (1 / 3 : ℚ)) .undef (some 2) = some (33 / 100 : ℚ) := by
  show some (roundToPrecision (1 / 3 : ℚ) (some 2)) = some (33 / 100 : ℚ)
  rw [roundToPrecision_some]
  have h : jsRound ((1 / 3 : ℚ) * 10 ^ (2 : ℤ)) = 33 := by
    unfold jsRound
    have he : ((1 / 3 : ℚ) * 10 ^ (2 : ℤ) + 1 / 2) = 203 / 6 := by
      norm_num
    rw [he, Int.floor_eq_iff]
    norm_num
  rw [h]
  norm_num

/-- Witness for C9: rounding `1/3` to two decimals gives `33/100`, and
coercing that output again with the same precision is the identity. -/
theorem c9_witness :
    coerceNumericField witnessParse (.num (1 / 3 : ℚ)) .undef (some 2) = some (33 / 100 : ℚ) ∧
    coerceNumericField witnessParse (.num (33 / 100 : ℚ)) .undef (some 2) = some (33 / 100 : ℚ) :=
  ⟨c9_round_value, c9_coerceNumeric_idempotent witnessParse (.num (1 / 3 : ℚ)) .undef
      (some 2) (33 / 100 : ℚ) c9_round_value⟩

/-- **C8.** For every existing last-enriched value: absent (undefined, null
or empty string) → the resolved stamp is date-only; a string carrying a time
component (`'T'`) → full date-time; a date-only string → stays date-only, so
a write never upgrades a date-only column value to date-time granularity. -/
theorem c8_timestamp_granularity (now : String) (v : JSVal) :
    (isBlankField v = true → resolveLastEnrichedValue now v = currentDateForAirtable now) ∧
    (∀ s, v = .str s → s ≠ "" → s.data.contains 'T' = true →
      resolveLastEnrichedValue now v = now) ∧
    (∀ s, v = .str s → s ≠ "" → s.data.contains 'T' = false →
      resolveLastEnrichedValue now v = currentDateForAirtable now) := by
  refine ⟨?_, ?_, ?_⟩
  · intro h
    cases v <;> simp_all [isBlankField, resolveLastEnrichedValue]
  · intro s hv hne hT
    subst hv
    simp only [resolveLastEnrichedValue]
    rw [if_neg hne, if_pos hT]
  · intro s hv hne hT
    subst hv
    simp only [resolveLastEnrichedValue]
    rw [if_neg hne, if_neg (by simpa using hT)]

/-- Witness for C8: an existing date-only stamp stays date-only, an existing
date-time stamp is re-stamped date-time, a blank one gets date-only. -/
theorem c8_witness :
    resolveLastEnrichedValue "2026-10-12T10:00:00.000Z" (.str "2026-01-01") = "2026-10-12" ∧
    resolveLastEnrichedValue "2026-10-12T10:00:00.000Z" (.str "2026-01-01T09:00:00.000Z")
      = "2026-10-12T10:00:00.000Z" ∧
    resolveLastEnrichedValue "2026-10-12T10:00:00.000Z" .undef = "2026-10-12" := by
  refine ⟨?_, ?_, ?_⟩
  · have h := (c8_timestamp_granularity "2026-10-12T10:00:00.000Z"
      (.str "2026-01-01")).2.2 "2026-01-01" rfl (by decide) (by decide)
    exact h.trans rfl
  · exact (c8_timestamp_granularity "2026-10-12T10:00:00.000Z"
      (.str "2026-01-01T09:00:00.000Z")).2.1 "2026-01-01T09:00:00.000Z" rfl
      (by decide) (by decide)
  · have h := (c8_timestamp_granularity "2026-10-12T10:00:00.000Z" .undef).1 (by decide)
    exact h.trans rfl

/-- **C5.** `pickEnrichmentStatus` returns the configured option matching
the desired token case-insensitively (after trimming); else, if a fallback
token is given, the configured option matching the fallback; else
`undefined` — never an unconfigured guess — and every write path treats
`undefined` by omitting the `Enrichment Status` field from the write
entirely. -/
theorem c5_pickStatus_contract (opts : List String) (st : String) (fb : Option String) :
    (∀ o, pickEnrichmentStatus opts st fb = some o → o ∈ opts) ∧
    (∀ o, matchSelectOption st opts = some o →
      o ∈ opts ∧ lowerStr (trimStr o) = lowerStr (trimStr st)) ∧
    (∀ o, matchSelectOption st opts = some o → pickEnrichmentStatus opts st fb = some o) ∧
    (matchSelectOption st opts = none →
      pickEnrichmentStatus opts st fb =
        (match fb with | some f => matchSelectOption f opts | none => none)) ∧
    (∀ cfg fields, pickEnrichmentStatus cfg.statusOptions "not_found" none = none →
      hasF (notFoundUpdate cfg fields) "Enrichment Status" = false) ∧
    (∀ cfg fields placeId,
      pickEnrichmentStatus cfg.statusOptions "error" (some "pending") = none →
      hasF (noDetailsUpdate cfg fields placeId) "Enrichment Status" = false) ∧
    (∀ cfg fields e, pickEnrichmentStatus cfg.statusOptions "error" (some "pending") = none →
      hasF (errorFallbackFields cfg fields e) "Enrichment Status" = false) ∧
    (∀ cfg fields name slug placeId d desc,
      pickEnrichmentStatus cfg.statusOptions "enriched" none = none →
      hasF (fullPayload cfg fields name slug placeId d desc) "Enrichment Status" = false) := by
  have hmem : ∀ t o, matchSelectOption t opts = some o →
      o ∈ opts ∧ lowerStr (trimStr o) = lowerStr (trimStr t) := by
    intro t o h
    unfold matchSelectOption at h
    by_cases ht : t = ""
    · rw [if_pos ht] at h
      exact Option.noConfusion h
    · rw [if_neg ht] at h
      exact ⟨List.mem_of_find?_eq_some h, by simpa using List.find?_some h⟩
  refine ⟨?_, hmem st, ?_, ?_, ?_, ?_, ?_, ?_⟩
  · intro o h
    unfold pickEnrichmentStatus at h
    cases hm : matchSelectOption st opts with
    | some m =>
      rw [hm] at h
      cases h
      exact (hmem st o hm).1
    | none =>
      simp only [hm] at h
      cases fb with
      | none => exact Option.noConfusion h
      | some f =>
        have h' : (if f = "" then none else matchSelectOption f opts) = some o := h
        by_cases hf : f = ""
        · rw [if_pos hf] at h'
          exact Option.noConfusion h'
        · rw [if_neg hf] at h'
          exact (hmem f o h').1
  · intro o h
    unfold pickEnrichmentStatus
    rw [h]
  · intro h
    unfold pickEnrichmentStatus
    simp only [h]
    cases fb with
    | none => rfl
    | some f =>
      by_cases hf : f = ""
      · subst hf
        simp [matchSelectOption]
      · simp only [if_neg hf]
  · intro cfg fields h
    unfold notFoundUpdate
    rw [h]
    rfl
  · intro cfg fields placeId h
    unfold noDetailsUpdate
    rw [h]
    rfl
  · intro cfg fields e h
    unfold errorFallbackFields
    rw [h]
    rfl
  · intro cfg fields name slug placeId d desc h
    unfold fullPayload
    rw [h]
    rfl

/-- Witness for C5: with configured options `["Pendiente", "Hecho"]` the
desired token `pending` has no case-insensitive match, `pickEnrichmentStatus`
returns `undefined`, and the `not_found` write payload carries no
`Enrichment Status` field. -/
theorem c5_witness :
    pickEnrichmentStatus ["Pendiente", "Hecho"] "pending" none = none ∧
    hasF (notFoundUpdate cfgSpanish []) "Enrichment Status" = false :=
  ⟨by decide,
   (c5_pickStatus_contract ["Pendiente", "Hecho"] "pending" none).2.2.2.2.1
     cfgSpanish [] (by decide)⟩

/-- For text-shaped values, the `{f} = ''` formula idiom coincides with
blankness. -/
theorem fieldEmpty_iff_blank (v : JSVal) (h : textValued v = true) :
    fieldFormulaStr v = "" ↔ isBlankField v = true := by
  cases v <;> simp_all [textValued, fieldFormulaStr, isBlankField]

set_option maxHeartbeats 1000000 in
/-- **C2.** The set of records fetched for processing is exactly those with
status case-insensitively in `{pending, error, enriched}` or blank AND
(Place ID blank OR Photo URL blank OR (text-generation enabled AND
Description blank) OR force-refresh active); the predicate is pushed down to
the store's query facility (`airtableSelect` with the formula and the batch
limit) rather than evaluated by local filtering of all records. -/
theorem c2_eligibility_pushed_down (cfg : Config) (store : Store) (limit : ℕ) :
    fetchPendingBatch cfg store limit =
      airtableSelect store (pendingFilterFormula cfg) limit ∧
    ∀ flds, textValued (getF flds "Enrichment Status") = true →
      textValued (getF flds "Description") = true →
      evalFormula flds (pendingFilterFormula cfg) = specEligible cfg flds := by
  refine ⟨rfl, ?_⟩
  intro flds hst hds
  have e1 : lowerStr (lowerStr "pending") = "pending" := rfl
  have e2 : lowerStr (lowerStr "error") = "error" := rfl
  have e3 : lowerStr (lowerStr "enriched") = "enriched" := rfl
  have hbs := fieldEmpty_iff_blank (getF flds "Enrichment Status") hst
  have hbd := fieldEmpty_iff_blank (getF flds "Description") hds
  rw [Bool.eq_iff_iff]
  cases hr : cfg.refreshPhotos <;> cases ho : cfg.openaiEnabled <;>
  · simp only [pendingFilterFormula, buildStatusFilterFormula, statusesToReprocess,
      specEligible, hr, ho, Bool.false_eq_true, if_true, if_false, ite_true, ite_false,
      List.map, List.cons_append, List.nil_append, List.append_nil,
      evalFormula, evalFormulaAny, evalFormulaAll, e1, e2, e3,
      Bool.or_eq_true, Bool.and_eq_true, Bool.or_false, Bool.and_true, Bool.false_and,
      Bool.true_and, Bool.or_true, decide_eq_true_eq,
      List.mem_cons, List.not_mem_nil, List.mem_singleton]
    tauto

/-- Witness for C2 at a concrete store: one eligible pending record, one
`not_found` record that the formula must exclude. -/
theorem c2_witness :
    fetchPendingBatch cfgDefault
      [⟨"r1", [("Name", .str "Cafe X"), ("Enrichment Status", .str "pending")]⟩,
       ⟨"r2", [("Name", .str "Cafe Y"), ("Enrichment Status", .str "not_found")]⟩] 5 =
      airtableSelect
        [⟨"r1", [("Name", .str "Cafe X"), ("Enrichment Status", .str "pending")]⟩,
         ⟨"r2", [("Name", .str "Cafe Y"), ("Enrichment Status", .str "not_found")]⟩]
        (pendingFilterFormula cfgDefault) 5 ∧
    evalFormula [("Enrichment Status", .str "pending")] (pendingFilterFormula cfgDefault) =
      specEligible cfgDefault [("Enrichment Status", .str "pending")] :=
  ⟨(c2_eligibility_pushed_down cfgDefault _ 5).1,
   (c2_eligibility_pushed_down cfgDefault [] 5).2 [("Enrichment Status", .str "pending")]
     (by decide) (by decide)⟩

/-- **C10.** A batch record whose Name field is blank (absent or
whitespace-only) makes `enrichRecord` return immediately without any
provider request or store write — the engine state (store, latch, trace) is
returned unchanged — yet the batch loop still counts it toward the total
processed, and with the store unchanged the record stays eligible for the
same query on every subsequent iteration and run. -/
theorem c10_blank_name_skipped_but_counted (cfg : Config) (prov : Provider)
    (tbl : TableFn) (s : S) (rec : Rec) (t : ℕ) (rs : List Rec) (limit : ℕ)
    (h : clean (getF rec.fields "Name") = "") :
    enrichRecord cfg prov tbl s rec = (s, none) ∧
    processBatch cfg prov tbl s t (rec :: rs) = processBatch cfg prov tbl s (t + 1) rs ∧
    fetchPendingBatch cfg ((enrichRecord cfg prov tbl s rec).1).store limit =
      fetchPendingBatch cfg s.store limit ∧
    (rec ∈ fetchPendingBatch cfg s.store limit →
      rec ∈ fetchPendingBatch cfg ((enrichRecord cfg prov tbl s rec).1).store limit) := by
  have he : enrichRecord cfg prov tbl s rec = (s, none) := by
    simp [enrichRecord, h]
  refine ⟨he, ?_, by rw [he], by rw [he]; exact fun hm => hm⟩
  simp only [processBatch, he]

/-- Witness for C10: a record whose Name is whitespace-only is skipped with
the state unchanged and still counted. -/
theorem c10_witness :
    enrichRecord cfgDefault
      { textSearch := fun _ => .ok none, details := fun _ => .ok none
        genDesc := fun _ => "" }
      (airtableTable true)
      ⟨true, [⟨"r1", [("Name", .str "   ")]⟩], []⟩ ⟨"r1", [("Name", .str "   ")]⟩ =
      (⟨true, [⟨"r1", [("Name", .str "   ")]⟩], []⟩, none) ∧
    processBatch cfgDefault
      { textSearch := fun _ => .ok none, details := fun _ => .ok none
        genDesc := fun _ => "" }
      (airtableTable true)
      ⟨true, [⟨"r1", [("Name", .str "   ")]⟩], []⟩ 0 [⟨"r1", [("Name", .str "   ")]⟩] =
      processBatch cfgDefault
        { textSearch := fun _ => .ok none, details := fun _ => .ok none
          genDesc := fun _ => "" }
        (airtableTable true)
        ⟨true, [⟨"r1", [("Name", .str "   ")]⟩], []⟩ 1 [] := by
  have h := c10_blank_name_skipped_but_counted cfgDefault
    { textSearch := fun _ => .ok none, details := fun _ => .ok none
      genDesc := fun _ => "" }
    (airtableTable true)
    ⟨true, [⟨"r1", [("Name", .str "   ")]⟩], []⟩ ⟨"r1", [("Name", .str "   ")]⟩
    0 [] 5 (by decide)
  exact ⟨h.1, h.2.1⟩

/-- **C1 counterexample.** An already-`enriched` record revisited because
its description is missing (force-refresh off, text generation on) reaches
the write step with details fetched — and the engine writes only the photo
URL, not the full merged field set the claim demands for this case: no sent
payload carries a `Description` or `Enrichment Status` field. -/
theorem c1_counterexample :
    cfgDefault.refreshPhotos = false ∧
    cfgDefault.openaiEnabled = true ∧
    isAlreadyEnrichedB cfgDefault.statusOptions recEnrichedNoDesc.fields = true ∧
    isBlankField (getF recEnrichedNoDesc.fields "Description") = true ∧
    specEligible cfgDefault recEnrichedNoDesc.fields = true ∧
    (enrichRecord cfgDefault provFixture (airtableTable true)
        ⟨true, [recEnrichedNoDesc], []⟩ recEnrichedNoDesc).1.trace =
      [.detailsCall "p1", .descCall "cafe-x",
       .send .update [⟨some "r1", [("Photo URL", .str
         "https://maps.googleapis.com/maps/api/place/photo?maxwidth=1200&photoreference=PHREF&key=KEY")]⟩]] ∧
    ((enrichRecord cfgDefault provFixture (airtableTable true)
        ⟨true, [recEnrichedNoDesc], []⟩ recEnrichedNoDesc).1.trace.all (fun eff =>
      match eff with
      | .send _ es => es.all (fun en =>
          !hasF en.fields "Description" && !hasF en.fields "Enrichment Status")
      | _ => true)) = true := by
  refine ⟨rfl, rfl, by decide, by decide, by decide, by decide, by decide⟩

/-- **C1 (amended).** For every record that reaches the write step with
provider details fetched: if the record is already in the resolved
`enriched` status — regardless of why it was revisited, whether a refresh
flag or a missing core field such as the description — the engine writes
only the photo URL as a minimal patch; in every other case it writes the
full merged field set with status set to the resolved `enriched` label
(omitted if unmatched). -/
theorem c1_write_step_dichotomy (cfg : Config) (prov : Provider) (tbl : TableFn)
    (na : Bool) (store : Store) (rec : Rec) (pid : String) (d : PlaceDetails)
    (hname : clean (getF rec.fields "Name") ≠ "")
    (hpid : clean (getF rec.fields "Place ID") = pid)
    (hpne : pid ≠ "")
    (hdet : prov.details pid = .ok (some d)) :
    (isAlreadyEnrichedB cfg.statusOptions rec.fields = true →
      firstSend (enrichRecord cfg prov tbl ⟨na, store, []⟩ rec).1.trace =
        some (.update, [⟨some rec.id, minimalPhotoPatch cfg rec.fields d⟩]) ∧
      (minimalPhotoPatch cfg rec.fields d).map Prod.fst = ["Photo URL"]) ∧
    (isAlreadyEnrichedB cfg.statusOptions rec.fields = false →
      firstSend (enrichRecord cfg prov tbl ⟨na, store, []⟩ rec).1.trace =
        some (.update, [⟨some rec.id,
          sanitizeOptionalFields na
            (upsertPayload (slugOf rec.fields)
              (fullPayloadOf cfg prov rec.fields pid d) false)⟩]) ∧
      (∀ ev, pickEnrichmentStatus cfg.statusOptions "enriched" none = some ev → ev ≠ "" →
        getF (fullPayloadOf cfg prov rec.fields pid d) "Enrichment Status" = .str ev) ∧
      (pickEnrichmentStatus cfg.statusOptions "enriched" none = none →
        hasF (fullPayloadOf cfg prov rec.fields pid d) "Enrichment Status" = false)) := by
  obtain ⟨extra, hfs⟩ := enrichTry_sends_of_details cfg prov tbl ⟨na, store, []⟩ rec
    (slugOf rec.fields) (clean (getF rec.fields "Name"))
    (isAlreadyEnrichedB cfg.statusOptions rec.fields) pid d (by simp [sends])
    hpid hpne hdet
  have hmain := enrichRecord_firstSend_generic cfg prov tbl ⟨na, store, []⟩ rec _ extra
    hname hfs
  constructor
  · intro hA
    rw [hA] at hmain
    simp only [ite_true, if_true] at hmain
    have h1 : upsertPayload (slugOf rec.fields) (minimalPhotoPatch cfg rec.fields d) true =
        minimalPhotoPatch cfg rec.fields d := by
      unfold upsertPayload
      rw [if_neg]
      simp
    have h2 : sanitizeOptionalFields na (minimalPhotoPatch cfg rec.fields d) =
        minimalPhotoPatch cfg rec.fields d :=
      sanitize_of_no_notes na _ rfl
    rw [h1, h2] at hmain
    exact ⟨hmain, rfl⟩
  · intro hA
    rw [hA] at hmain
    simp only [Bool.false_eq_true, ite_false, if_false] at hmain
    refine ⟨hmain, ?_, ?_⟩
    · intro ev hev hne
      unfold fullPayloadOf fullPayload
      rw [hev]
      show getF (if ev = "" then _ else setF _ "Enrichment Status" (.str ev))
        "Enrichment Status" = .str ev
      rw [if_neg hne, getF_setF_self]
    · intro hnone
      unfold fullPayloadOf fullPayload
      rw [hnone]
      rfl

/-- Witness for C1: the fixture record (already `enriched`, blank
description) gets exactly the minimal photo patch. -/
theorem c1_witness :
    firstSend (enrichRecord cfgDefault provFixture (airtableTable true)
        ⟨true, [recEnrichedNoDesc], []⟩ recEnrichedNoDesc).1.trace =
      some (.update, [⟨some recEnrichedNoDesc.id,
        minimalPhotoPatch cfgDefault recEnrichedNoDesc.fields detailsFixture⟩]) ∧
    (minimalPhotoPatch cfgDefault recEnrichedNoDesc.fields detailsFixture).map Prod.fst =
      ["Photo URL"] :=
  (c1_write_step_dichotomy cfgDefault provFixture (airtableTable true) true
      [recEnrichedNoDesc] recEnrichedNoDesc "p1" detailsFixture
      (by decide) (by decide) (by decide) rfl).1 (by decide)

/-- **C4.** A record already in the resolved `enriched` status, revisited
only because force-refresh is active and whose photo is present: a
successful pass issues a single write containing only the `Photo URL` field,
so the record ends the run with every field other than `Photo URL`
(including Slug, Description, Enrichment Status and Last Enriched)
unchanged, and every other record untouched. -/
theorem c4_refresh_minimal_patch_frame (cfg : Config) (prov : Provider) (nc na : Bool)
    (store : Store) (rec : Rec) (pid : String) (d : PlaceDetails)
    (hrefresh : cfg.refreshPhotos = true)
    (hA : isAlreadyEnrichedB cfg.statusOptions rec.fields = true)
    (hphoto : isBlankField (getF rec.fields "Photo URL") = false)
    (hname : clean (getF rec.fields "Name") ≠ "")
    (hpid : clean (getF rec.fields "Place ID") = pid)
    (hpne : pid ≠ "")
    (hdet : prov.details pid = .ok (some d))
    (hin : store.any (fun r => r.id = rec.id) = true) :
    (enrichRecord cfg prov (airtableTable nc) ⟨na, store, []⟩ rec).2 = none ∧
    sends (enrichRecord cfg prov (airtableTable nc) ⟨na, store, []⟩ rec).1.trace =
      [(.update, [⟨some rec.id, minimalPhotoPatch cfg rec.fields d⟩])] ∧
    (minimalPhotoPatch cfg rec.fields d).map Prod.fst = ["Photo URL"] ∧
    (enrichRecord cfg prov (airtableTable nc) ⟨na, store, []⟩ rec).1.store =
      store.map (fun r =>
        if r.id = rec.id then
          { r with fields := mergeF r.fields (minimalPhotoPatch cfg rec.fields d) }
        else r) ∧
    (∀ r : Rec, ∀ f, f ≠ "Photo URL" →
      getF (mergeF r.fields (minimalPhotoPatch cfg rec.fields d)) f = getF r.fields f) := by
  have h1 : upsertPayload (slugOf rec.fields) (minimalPhotoPatch cfg rec.fields d) true =
      minimalPhotoPatch cfg rec.fields d := by
    unfold upsertPayload
    rw [if_neg]
    simp
  have h2 : ∀ b : Bool, sanitizeOptionalFields b (minimalPhotoPatch cfg rec.fields d) =
      minimalPhotoPatch cfg rec.fields d := fun b => sanitize_of_no_notes b _ rfl
  have hok : airtableTable nc .update [⟨some rec.id, minimalPhotoPatch cfg rec.fields d⟩]
      store = .ok (applyUpdateEntries [⟨some rec.id, minimalPhotoPatch cfg rec.fields d⟩]
        store, []) :=
    airtableTable_update_ok nc _ store (by simp [hasF, minimalPhotoPatch, List.lookup])
      (by simp [hin])
  have hframe : ∀ r : Rec, ∀ f, f ≠ "Photo URL" →
      getF (mergeF r.fields (minimalPhotoPatch cfg rec.fields d)) f = getF r.fields f := by
    intro r f hf
    show getF (setF r.fields "Photo URL" _) f = getF r.fields f
    exact getF_setF_ne _ _ _ _ hf
  refine ⟨?_, ?_, rfl, ?_, hframe⟩ <;>
  · unfold enrichRecord enrichTry enrichWithPlaceId enrichWithDetails getPlaceDetails
      generateDescription upsertUnit upsertBySlug performTableAction
    simp only [hpid, hdet, hname, ite_not, if_neg hname, hpne, ne_eq,
      not_false_eq_true, ite_true, ite_false, if_pos, hA]
    by_cases hd : clean (getF rec.fields "Description") = "" <;>
      by_cases hoa : cfg.openaiEnabled = true <;>
      simp only [hd, hoa, ite_true, ite_false, if_true, if_false, Bool.false_eq_true,
        not_true_eq_false, not_false_eq_true, addTrace, h1, h2,
        List.map, List.isEmpty_cons] <;>
    · simp [hok, applyUpdateEntries_single, sends_append, sends, Except.map]

/-- Witness for C4: the fixture record under force-refresh ends with only
its photo URL rewritten. -/
theorem c4_witness :
    (enrichRecord cfgRefresh provFixture (airtableTable true)
        ⟨true, [recEnrichedNoDesc], []⟩ recEnrichedNoDesc).2 = none ∧
    sends (enrichRecord cfgRefresh provFixture (airtableTable true)
        ⟨true, [recEnrichedNoDesc], []⟩ recEnrichedNoDesc).1.trace =
      [(.update, [⟨some recEnrichedNoDesc.id,
        minimalPhotoPatch cfgRefresh recEnrichedNoDesc.fields detailsFixture⟩])] ∧
    (minimalPhotoPatch cfgRefresh recEnrichedNoDesc.fields detailsFixture).map Prod.fst =
      ["Photo URL"] ∧
    (enrichRecord cfgRefresh provFixture (airtableTable true)
        ⟨true, [recEnrichedNoDesc], []⟩ recEnrichedNoDesc).1.store =
      [recEnrichedNoDesc].map (fun r =>
        if r.id = recEnrichedNoDesc.id then
          { r with fields := (mergeF r.fields
              (minimalPhotoPatch cfgRefresh recEnrichedNoDesc.fields detailsFixture)) }
        else r) ∧
    (∀ r : Rec, ∀ f, f ≠ "Photo URL" →
      getF (mergeF r.fields
        (minimalPhotoPatch cfgRefresh recEnrichedNoDesc.fields detailsFixture)) f =
        getF r.fields f) :=
  c4_refresh_minimal_patch_frame cfgRefresh provFixture true true [recEnrichedNoDesc]
    recEnrichedNoDesc "p1" detailsFixture rfl (by decide) (by decide) (by decide)
    (by decide) (by decide) rfl (by decide)

/-- **C3 counterexample.** With default options, a pending record whose
lookup finds no match gets one write — but that write carries the record's
`Slug` key in addition to the `not_found` label and the timestamp, so it is
not "the not_found label plus the lifecycle timestamp and nothing else". -/
theorem c3_counterexample :
    (enrichRecord cfgDefault provFixture (airtableTable true)
        ⟨true, [recPendingNoPid], []⟩ recPendingNoPid).1.trace =
      [.searchCall "Cafe X, London, UK",
       .send .update [⟨some "r2",
         [("Last Enriched", .str "2026-10-12"),
          ("Enrichment Status", .str "not_found"),
          ("Slug", .str "cafe-x")]⟩]] ∧
    ((sends (enrichRecord cfgDefault provFixture (airtableTable true)
        ⟨true, [recPendingNoPid], []⟩ recPendingNoPid).1.trace).all (fun p =>
      p.2.all (fun en => hasF en.fields "Slug"))) = true := by
  exact ⟨by decide, by decide⟩

/-- **C3 (amended).** With the default configured status options, when a
record's identifier lookup returns no match (record not already enriched),
the engine issues exactly one write consisting of the `not_found` label, the
lifecycle timestamp, and the record's slug key — nothing else; thereafter,
with the store otherwise unchanged, no record with that id ever satisfies
the eligibility predicate on any subsequent run, whatever the flags. -/
theorem c3_notfound_write_and_terminal (cfg : Config) (prov : Provider) (nc na : Bool)
    (store : Store) (rec : Rec)
    (hopt : cfg.statusOptions = defaultStatusOptions)
    (hname : clean (getF rec.fields "Name") ≠ "")
    (hpid0 : clean (getF rec.fields "Place ID") = "")
    (hA : isAlreadyEnrichedB cfg.statusOptions rec.fields = false)
    (ht : trimStr (slugOf rec.fields) ≠ "")
    (hsearch : prov.textSearch (trimStr (clean (getF rec.fields "Name") ++ ", " ++
      cfg.defaultCity ++ ", " ++ cfg.defaultCountry)) = .ok none)
    (hin : store.any (fun r => r.id = rec.id) = true) :
    (enrichRecord cfg prov (airtableTable nc) ⟨na, store, []⟩ rec).2 = none ∧
    sends (enrichRecord cfg prov (airtableTable nc) ⟨na, store, []⟩ rec).1.trace =
      [(.update, [⟨some rec.id,
        upsertPayload (slugOf rec.fields) (notFoundUpdate cfg rec.fields) false⟩])] ∧
    (upsertPayload (slugOf rec.fields) (notFoundUpdate cfg rec.fields) false).map
      Prod.fst = ["Last Enriched", "Enrichment Status", "Slug"] ∧
    getF (upsertPayload (slugOf rec.fields) (notFoundUpdate cfg rec.fields) false)
      "Enrichment Status" = .str "not_found" ∧
    getF (upsertPayload (slugOf rec.fields) (notFoundUpdate cfg rec.fields) false)
      "Last Enriched" =
      .str (resolveLastEnrichedValue cfg.nowISO (getF rec.fields "Last Enriched")) ∧
    (∀ cfg2 : Config, ∀ limit : ℕ, ∀ r' : Rec,
      r' ∈ fetchPendingBatch cfg2
        (enrichRecord cfg prov (airtableTable nc) ⟨na, store, []⟩ rec).1.store limit →
      r'.id ≠ rec.id) := by
  have hpay := c3_payload_shape cfg rec hopt ht
  have hrun := c3_run cfg prov nc na store rec hopt hname hpid0 hA ht hsearch hin
  refine ⟨by rw [hrun], by rw [hrun]; rfl, by rw [hpay]; rfl, by rw [hpay]; rfl,
    by rw [hpay]; rfl, ?_⟩
  intro cfg2 limit r' hr' heq
  rw [hrun] at hr'
  unfold fetchPendingBatch airtableSelect at hr'
  have hr2 := List.mem_filter.mp (List.take_subset _ _ hr')
  obtain ⟨r, hrs, hfr⟩ := List.mem_map.mp hr2.1
  by_cases hid : r.id = rec.id
  · rw [if_pos hid] at hfr
    have hES : getF r'.fields "Enrichment Status" = .str "not_found" := by
      rw [← hfr]
      show getF (mergeF r.fields
        (upsertPayload (slugOf rec.fields) (notFoundUpdate cfg rec.fields) false))
        "Enrichment Status" = .str "not_found"
      rw [hpay, mergeF_cons, mergeF_cons, mergeF_cons, mergeF_nil,
        getF_setF_ne _ _ _ _ (by decide), getF_setF_self]
    have hfalse := notfound_not_eligible cfg2 r'.fields hES
    rw [hr2.2] at hfalse
    exact absurd hfalse (by decide)
  · rw [if_neg hid] at hfr
    rw [← hfr] at heq
    exact hid heq

/-- Witness for C3: the pending fixture record transitions to `not_found`
with a single three-field write. -/
theorem c3_witness :
    (enrichRecord cfgDefault provFixture (airtableTable true)
        ⟨true, [recPendingNoPid], []⟩ recPendingNoPid).2 = none ∧
    sends (enrichRecord cfgDefault provFixture (airtableTable true)
        ⟨true, [recPendingNoPid], []⟩ recPendingNoPid).1.trace =
      [(.update, [⟨some recPendingNoPid.id,
        upsertPayload (slugOf recPendingNoPid.fields)
          (notFoundUpdate cfgDefault recPendingNoPid.fields) false⟩])] ∧
    (∀ cfg2 : Config, ∀ limit : ℕ, ∀ r' : Rec,
      r' ∈ fetchPendingBatch cfg2
        (enrichRecord cfgDefault provFixture (airtableTable true)
          ⟨true, [recPendingNoPid], []⟩ recPendingNoPid).1.store limit →
      r'.id ≠ recPendingNoPid.id) := by
  have h := c3_notfound_write_and_terminal cfgDefault provFixture true true
    [recPendingNoPid] recPendingNoPid rfl (by decide) (by decide) (by decide)
    (by decide) rfl (by decide)
  exact ⟨h.1, h.2.1, h.2.2.2.2.2⟩

/-- **C6 counterexample.** An already-`enriched` record whose details call
throws a transient non-404 fault: the error is caught, but — contrary to the
claim — nothing is written at all; the run just moves on. -/
theorem c6_counterexample :
    isAlreadyEnrichedB cfgDefault.statusOptions recEnrichedNoDesc.fields = true ∧
    isAirtableNotFound errNetwork = false ∧
    enrichRecord cfgDefault provErrorFixture (airtableTable true)
        ⟨true, [recEnrichedNoDesc], []⟩ recEnrichedNoDesc =
      (⟨true, [recEnrichedNoDesc], [.detailsCall "p1"]⟩, none) ∧
    sends (enrichRecord cfgDefault provErrorFixture (airtableTable true)
        ⟨true, [recEnrichedNoDesc], []⟩ recEnrichedNoDesc).1.trace = [] := by
  exact ⟨by decide, by decide, by decide, by decide⟩

/-- **C6 (amended).** Any error thrown during enrichment other than an
Airtable 404 is caught at the per-record boundary and the batch loop
continues — but an already-`enriched` record is skipped silently with no
write; only a record not already enriched is recorded by a write of
`{status: error-or-pending fallback, notes: String(error), lifecycle
timestamp}` (keyed by slug). An Airtable 404 is re-thrown, aborting the
batch with the record uncounted and a non-zero exit. -/
theorem c6_per_record_error_boundary (cfg : Config) (prov : Provider)
    (store : Store) (rec : Rec) (pid : String) (e : JsError) (t : ℕ) (rs : List Rec)
    (hname : clean (getF rec.fields "Name") ≠ "")
    (hpid : clean (getF rec.fields "Place ID") = pid)
    (hpne : pid ≠ "")
    (herr : prov.details pid = .error e)
    (hin : store.any (fun r => r.id = rec.id) = true) :
    (isAirtableNotFound e = false →
      isAlreadyEnrichedB cfg.statusOptions rec.fields = false →
      (enrichRecord cfg prov (airtableTable true) ⟨true, store, []⟩ rec).2 = none ∧
      sends (enrichRecord cfg prov (airtableTable true) ⟨true, store, []⟩ rec).1.trace =
        [(.update, [⟨some rec.id, upsertPayload (slugOf rec.fields)
          (errorFallbackFields cfg rec.fields e) false⟩])] ∧
      getF (upsertPayload (slugOf rec.fields) (errorFallbackFields cfg rec.fields e) false)
        "Notes" = .str (errNotesString e) ∧
      getF (upsertPayload (slugOf rec.fields) (errorFallbackFields cfg rec.fields e) false)
        "Last Enriched" =
        .str (resolveLastEnrichedValue cfg.nowISO (getF rec.fields "Last Enriched")) ∧
      (∀ st, pickEnrichmentStatus cfg.statusOptions "error" (some "pending") = some st →
        st ≠ "" →
        getF (upsertPayload (slugOf rec.fields) (errorFallbackFields cfg rec.fields e) false)
          "Enrichment Status" = .str st) ∧
      processBatch cfg prov (airtableTable true) ⟨true, store, []⟩ t (rec :: rs) =
        processBatch cfg prov (airtableTable true)
          (enrichRecord cfg prov (airtableTable true) ⟨true, store, []⟩ rec).1 (t + 1) rs) ∧
    (isAirtableNotFound e = false →
      isAlreadyEnrichedB cfg.statusOptions rec.fields = true →
      (enrichRecord cfg prov (airtableTable true) ⟨true, store, []⟩ rec).2 = none ∧
      sends (enrichRecord cfg prov (airtableTable true) ⟨true, store, []⟩ rec).1.trace = [] ∧
      processBatch cfg prov (airtableTable true) ⟨true, store, []⟩ t (rec :: rs) =
        processBatch cfg prov (airtableTable true)
          (enrichRecord cfg prov (airtableTable true) ⟨true, store, []⟩ rec).1 (t + 1) rs) ∧
    (isAirtableNotFound e = true →
      (enrichRecord cfg prov (airtableTable true) ⟨true, store, []⟩ rec).2 = some e ∧
      processBatch cfg prov (airtableTable true) ⟨true, store, []⟩ t (rec :: rs) =
        ((enrichRecord cfg prov (airtableTable true) ⟨true, store, []⟩ rec).1, t, some e) ∧
      runExitCode ((enrichRecord cfg prov (airtableTable true)
        ⟨true, store, []⟩ rec).1, t, some e) = 1) := by
  refine ⟨?_, ?_, ?_⟩
  · intro h404 hA
    have hrun := c6_run_error_fallback cfg prov store rec pid e hname hpid hpne herr
      h404 hA hin
    refine ⟨by rw [hrun], by rw [hrun]; rfl, ?_, ?_, ?_, by simp only [processBatch, hrun]⟩
    · rw [getF_upsertPayload_ne _ _ _ _ (by decide)]
      unfold errorFallbackFields
      rw [getF_addStatusField_ne _ _ _ (by decide)]
      rfl
    · rw [getF_upsertPayload_ne _ _ _ _ (by decide)]
      unfold errorFallbackFields
      rw [getF_addStatusField_ne _ _ _ (by decide)]
      rfl
    · intro st hst hne
      rw [getF_upsertPayload_ne _ _ _ _ (by decide)]
      unfold errorFallbackFields
      rw [hst]
      show getF (if st = "" then _ else setF _ "Enrichment Status" (.str st))
        "Enrichment Status" = .str st
      rw [if_neg hne, getF_setF_self]
  · intro h404 hA
    have hrun := c6_run_skip cfg prov (airtableTable true) true store rec pid e
      hname hpid hpne herr h404 hA
    exact ⟨by rw [hrun], by rw [hrun]; rfl, by simp only [processBatch, hrun]⟩
  · intro h404
    have hrun := c6_run_rethrow cfg prov (airtableTable true) true store rec pid e
      hname hpid hpne herr h404
    exact ⟨by rw [hrun], by simp only [processBatch, hrun], rfl⟩

/-- Witness for C6: the already-`enriched` fixture record under a transient
500 is skipped silently and the loop moves to the next record. -/
theorem c6_witness :
    (enrichRecord cfgDefault provErrorFixture (airtableTable true)
        ⟨true, [recEnrichedNoDesc], []⟩ recEnrichedNoDesc).2 = none ∧
    sends (enrichRecord cfgDefault provErrorFixture (airtableTable true)
        ⟨true, [recEnrichedNoDesc], []⟩ recEnrichedNoDesc).1.trace = [] ∧
    processBatch cfgDefault provErrorFixture (airtableTable true)
        ⟨true, [recEnrichedNoDesc], []⟩ 0 [recEnrichedNoDesc] =
      processBatch cfgDefault provErrorFixture (airtableTable true)
        (enrichRecord cfgDefault provErrorFixture (airtableTable true)
          ⟨true, [recEnrichedNoDesc], []⟩ recEnrichedNoDesc).1 1 [] :=
  (c6_per_record_error_boundary cfgDefault provErrorFixture [recEnrichedNoDesc]
      recEnrichedNoDesc "p1" errNetwork 0 [] (by decide) (by decide) (by decide)
      rfl (by decide)).2.1 (by decide) (by decide)

theorem sanitize_false_no_notes (fs : Fields) :
    hasF (sanitizeOptionalFields false fs) "Notes" = false := by
  unfold sanitizeOptionalFields
  split
  · exact hasF_delF_self _ _
  · rename_i hcond
    by_cases h : hasF fs "Notes" = true
    · exact absurd ⟨by simp, h⟩ hcond
    · simpa using h

theorem prepared_false_no_notes (records : List Entry) :
    hasNotesEntry (records.map (fun e =>
      { e with fields := sanitizeOptionalFields false e.fields })) = false := by
  unfold hasNotesEntry
  rw [List.any_map]
  rw [List.any_eq_false]
  intro e he
  simp [sanitize_false_no_notes]

theorem stripNotes_no_notes (es : List Entry) :
    hasNotesEntry (stripNotes es) = false := by
  unfold hasNotesEntry stripNotes
  rw [List.any_map, List.any_eq_false]
  intro e he
  simp only [Function.comp]
  split
  · simp [hasF_delF_self]
  · rename_i hcond
    simpa using hcond

theorem notesSendCount_send (a : TAction) (es : List Entry) :
    notesSendCount [.send a es] = if hasNotesEntry es then 1 else 0 := by
  unfold notesSendCount sends
  simp [List.countP_cons]
  intro a' b' hb'
  simp [sends] at hb'

theorem isMissingNotes_notFound (na : Bool) :
    isMissingNotesFieldError na airtableNotFoundError = false := by
  cases na <;> decide

theorem isMissingNotes_missing :
    isMissingNotesFieldError true missingNotesError = true := by decide

theorem airtableTable_false_error_of_no_notes (a : TAction) (entries : List Entry)
    (store : Store) (e : JsError)
    (hnp : (entries.any fun e => hasF e.fields "Notes") = false)
    (h : airtableTable false a entries store = .error e) :
    e = airtableNotFoundError := by
  unfold airtableTable at h
  rw [if_neg (by
    intro hc
    rw [hnp] at hc
    exact Bool.false_ne_true hc.2)] at h
  cases a with
  | update =>
    revert h
    show (if (entries.all fun e => match e.id with
        | some i => store.any (fun r => r.id = i)
        | none => false) = true then
      Except.ok (applyUpdateEntries entries store, ([] : List Rec))
    else Except.error airtableNotFoundError) = .error e → e = airtableNotFoundError
    split
    · intro h
      exact Except.noConfusion h
    · intro h
      exact (Except.error.inj h).symm
  | create =>
    exact Except.noConfusion h

theorem prepared_true_id (records : List Entry) :
    records.map (fun e => { e with fields := sanitizeOptionalFields true e.fields }) =
      records := by
  simp [sanitizeOptionalFields]

theorem performTableAction_no_notes_send (s : S) (a : TAction) (records : List Entry)
    (hprep : hasNotesEntry (records.map (fun e =>
      { e with fields := sanitizeOptionalFields s.notesAvail e.fields })) = false) :
    (performTableAction (airtableTable false) s a records).1.notesAvail = s.notesAvail ∧
    ((performTableAction (airtableTable false) s a records).1.trace = s.trace ∨
     (performTableAction (airtableTable false) s a records).1.trace =
       s.trace ++ [.send a (records.map (fun e =>
         { e with fields := sanitizeOptionalFields s.notesAvail e.fields }))]) := by
  unfold performTableAction
  by_cases hne : records.isEmpty = true
  · rw [if_pos hne]
    exact ⟨rfl, Or.inl rfl⟩
  · rw [if_neg hne]
    cases htbl : airtableTable false a (records.map (fun e =>
        { e with fields := sanitizeOptionalFields s.notesAvail e.fields })) s.store with
    | ok r =>
      cases r with
      | mk st res =>
        exact ⟨by simp [htbl, addTrace], Or.inr (by simp [htbl, addTrace])⟩
    | error e =>
      have he := airtableTable_false_error_of_no_notes a _ s.store e
        (by simpa [hasNotesEntry] using hprep) htbl
      subst he
      refine ⟨?_, Or.inr ?_⟩ <;>
        simp [htbl, isMissingNotes_notFound, addTrace]

theorem performTableAction_notes_reject (s : S) (a : TAction) (records : List Entry)
    (hna : s.notesAvail = true)
    (hnp : hasNotesEntry records = true) :
    (performTableAction (airtableTable false) s a records).1.notesAvail = false ∧
    (performTableAction (airtableTable false) s a records).1.trace =
      s.trace ++ [.send a records, .send a (stripNotes records)] := by
  have hne : records ≠ [] := by
    intro h
    subst h
    simp [hasNotesEntry] at hnp
  have htbl : airtableTable false a records s.store = .error missingNotesError := by
    unfold airtableTable
    rw [if_pos ⟨by simp, by simpa [hasNotesEntry] using hnp⟩]
  unfold performTableAction
  rw [if_neg (by simpa using hne)]
  simp only [hna, prepared_true_id, htbl, isMissingNotes_missing, if_true]
  cases htbl2 : airtableTable false a (stripNotes records) s.store with
  | ok r =>
    cases r with
    | mk st res => exact ⟨by simp [htbl2, addTrace], by simp [htbl2, addTrace]⟩
  | error e2 => exact ⟨by simp [htbl2, addTrace], by simp [htbl2, addTrace]⟩

theorem performTableAction_latch_inv (s : S) (a : TAction) (records : List Entry)
    (h : notesLatchInv s) :
    notesLatchInv (performTableAction (airtableTable false) s a records).1 := by
  rcases h with ⟨hna, hc⟩ | ⟨hna, hc⟩
  · by_cases hnp : hasNotesEntry records = true
    · obtain ⟨hl, ht⟩ := performTableAction_notes_reject s a records hna hnp
      right
      refine ⟨hl, ?_⟩
      rw [ht, notesSendCount_append, hc]
      have hone : notesSendCount [Effect.send a records,
          Effect.send a (stripNotes records)] = 1 := by
        unfold notesSendCount
        simp [sends, List.countP_cons, hnp, stripNotes_no_notes]
      rw [hone]
    · have hprep : hasNotesEntry (records.map (fun e =>
          { e with fields := sanitizeOptionalFields s.notesAvail e.fields })) = false := by
        rw [hna, prepared_true_id]
        exact Bool.eq_false_iff.mpr hnp
      obtain ⟨hl, ht⟩ := performTableAction_no_notes_send s a records hprep
      left
      refine ⟨hl.trans hna, ?_⟩
      rcases ht with h2 | h2
      · rw [h2, hc]
      · rw [h2, notesSendCount_append, hc, notesSendCount_send, hprep]
        rfl
  · have hprep : hasNotesEntry (records.map (fun e =>
        { e with fields := sanitizeOptionalFields s.notesAvail e.fields })) = false := by
      rw [hna]
      exact prepared_false_no_notes records
    obtain ⟨hl, ht⟩ := performTableAction_no_notes_send s a records hprep
    right
    refine ⟨hl.trans hna, ?_⟩
    rcases ht with h2 | h2
    · rw [h2]
      exact hc
    · rw [h2, notesSendCount_append, notesSendCount_send, hprep]
      simpa using hc

theorem runWrites_latch_inv (ws : List (TAction × List Entry)) (s : S)
    (h : notesLatchInv s) :
    notesLatchInv (runWrites (airtableTable false) s ws) := by
  induction ws generalizing s with
  | nil => exact h
  | cons w ws ih =>
    exact ih _ (performTableAction_latch_inv s w.1 w.2 h)

/-- **C7.** Against a backend whose schema lacks the Notes column:
(a) from a fresh run state (latch up, empty trace), at most one send in
the whole run ever carries `Notes`; (b) a write carrying `Notes` while
the latch is up is sent, rejected, retried exactly once with `Notes`
stripped, and trips the latch; (c) once the latch is down, no send ever
adds a Notes-carrying payload to the trace and the latch stays down. -/
theorem c7_notes_latch :
    (∀ (store : Store) (ws : List (TAction × List Entry)),
      notesSendCount (runWrites (airtableTable false) ⟨true, store, []⟩ ws).trace ≤ 1) ∧
    (∀ (s : S) (a : TAction) (records : List Entry),
      s.notesAvail = true → hasNotesEntry records = true →
        (performTableAction (airtableTable false) s a records).1.notesAvail = false ∧
        (performTableAction (airtableTable false) s a records).1.trace =
          s.trace ++ [.send a records, .send a (stripNotes records)] ∧
        hasNotesEntry (stripNotes records) = false) ∧
    (∀ (s : S) (a : TAction) (records : List Entry),
      s.notesAvail = false →
        (performTableAction (airtableTable false) s a records).1.notesAvail = false ∧
        notesSendCount (performTableAction (airtableTable false) s a records).1.trace =
          notesSendCount s.trace) := by
  refine ⟨?_, ?_, ?_⟩
  · intro store ws
    have h := runWrites_latch_inv ws ⟨true, store, []⟩
      (Or.inl ⟨rfl, by simp [notesSendCount, sends]⟩)
    rcases h with ⟨_, hc⟩ | ⟨_, hc⟩
    · omega
    · exact hc
  · intro s a records hna hnp
    obtain ⟨hl, ht⟩ := performTableAction_notes_reject s a records hna hnp
    exact ⟨hl, ht, stripNotes_no_notes records⟩
  · intro s a records hna
    have hprep : hasNotesEntry (records.map (fun e =>
        { e with fields := sanitizeOptionalFields s.notesAvail e.fields })) = false := by
      rw [hna]
      exact prepared_false_no_notes records
    obtain ⟨hl, ht⟩ := performTableAction_no_notes_send s a records hprep
    refine ⟨hl.trans hna, ?_⟩
    rcases ht with h2 | h2
    · rw [h2]
    · rw [h2, notesSendCount_append, notesSendCount_send, hprep]
      rfl

/-- Concrete check of C7: a singleton Notes-carrying write against the
Notes-free backend flips the latch and leaves exactly the original send
plus one stripped retry; and a whole two-write run sends Notes once. -/
theorem c7_witness :
    (notesSendCount (runWrites (airtableTable false) ⟨true, [], []⟩
        [(TAction.create, [⟨some "w1", [("Notes", JSVal.str "x")]⟩]),
         (TAction.create, [⟨some "w2", [("Notes", JSVal.str "y")]⟩])]).trace ≤ 1) ∧
    ((⟨true, [], []⟩ : S).notesAvail = true ∧
      hasNotesEntry [⟨some "w1", [("Notes", JSVal.str "x")]⟩] = true ∧
      ((performTableAction (airtableTable false) ⟨true, [], []⟩ TAction.create
          [⟨some "w1", [("Notes", JSVal.str "x")]⟩]).1.notesAvail = false ∧
        (performTableAction (airtableTable false) ⟨true, [], []⟩ TAction.create
            [⟨some "w1", [("Notes", JSVal.str "x")]⟩]).1.trace =
          [] ++ [.send TAction.create [⟨some "w1", [("Notes", JSVal.str "x")]⟩],
            .send TAction.create (stripNotes [⟨some "w1", [("Notes", JSVal.str "x")]⟩])] ∧
        hasNotesEntry (stripNotes [⟨some "w1", [("Notes", JSVal.str "x")]⟩]) = false)) :=
  ⟨c7_notes_latch.1 [] _,
    rfl, by decide,
    c7_notes_latch.2.1 ⟨true, [], []⟩ TAction.create
      [⟨some "w1", [("Notes", JSVal.str "x")]⟩] rfl (by decide)⟩

end EatingLondon
